import Mathlib

/-!
Shallow embedding of the session-scheduling and pacing engine of
`synthetic-multi-round-qa/multi-round-qa-apps.py`.

Conventions of the embedding:
* Python floats (wall-clock timestamps, gaps) are modelled as rationals.
* Python ints are modelled as `Int`.
* Code that can raise (assertions, `ZeroDivisionError`, `NameError`,
  network errors) is modelled with `Option`/`Except`: `none` / `.error`
  marks the raising path.
* The wall clock and the random text generator are external inputs; the
  embedding takes the observed times and the generated random strings as
  explicit arguments.
* The replay ("sharegpt") configuration is not modelled: every modelled
  session runs with `use_sharegpt = False`, the default execution mode.
-/

namespace MRQA

/-- Role tag of one chat turn. -/
inductive Role where
  | user
  | assistant
deriving DecidableEq, Repr

/-- One entry of `ChatHistory.history`: a dict `{"role": .., "content": ..}`. -/
structure Message where
  role : Role
  content : String
deriving DecidableEq, Repr

/-- `ChatHistory.history`: the ordered list of turns. -/
abbrev ChatHistory := List Message

/-- `ChatHistory.on_user_query`: appends a user turn; the assertion
`history[-1]["role"] == "assistant"` (for a non-empty history) is modelled
by returning `none` on its failure. -/
def ChatHistory.on_user_query (h : ChatHistory) (query : String) : Option ChatHistory :=
  if h.length = 0 then
    some (h ++ [⟨Role.user, query⟩])
  else if h.getLast?.map Message.role = some Role.assistant then
    some (h ++ [⟨Role.user, query⟩])
  else
    none

/-- `ChatHistory.on_system_response`: appends an assistant turn; the two
assertions (`len(history) > 0` and `history[-1]["role"] == "user"`) are
modelled by returning `none` on their failure. -/
def ChatHistory.on_system_response (h : ChatHistory) (response : String) : Option ChatHistory :=
  if h.length = 0 then
    none
  else if h.getLast?.map Message.role = some Role.user then
    some (h ++ [⟨Role.assistant, response⟩])
  else
    none

/-- One operation on a `ChatHistory`. -/
inductive ChatOp where
  | userQuery (query : String)
  | systemResponse (response : String)
deriving DecidableEq, Repr

/-- Apply a list of operations in order, propagating assertion failure. -/
def ChatHistory.applyOps (h : ChatHistory) : List ChatOp → Option ChatHistory
  | [] => some h
  | ChatOp.userQuery q :: rest =>
    match h.on_user_query q with
    | none => none
    | some h₂ => h₂.applyOps rest
  | ChatOp.systemResponse r :: rest =>
    match h.on_system_response r with
    | none => none
    | some h₂ => h₂.applyOps rest

/-- `App`: a shared tenant context bundle. -/
structure App where
  systemPrompt : String
  tools : String
  ragDocs : List String
deriving DecidableEq, Repr

/-- One raw entry of the parsed `Apps.json` array, before field extraction:
a JSON object that may or may not carry each expected key. -/
structure AppRow where
  systemPrompt : Option String
  tools : Option String
  ragDocs : Option (List String)
deriving DecidableEq, Repr

/-- `AppsManager._load_apps`, applied to the already-parsed JSON array
(file I/O and JSON parsing are external): each row is converted with
`app_data["systemPrompt"]` etc.; a missing key raises `KeyError`, which the
`except` clause re-raises, modelled as `.error`. An empty array is
accepted and yields an empty pool. -/
def load_apps : List AppRow → Except String (List App)
  | [] => Except.ok []
  | r :: rest =>
    match r.systemPrompt, r.tools, r.ragDocs with
    | some s, some t, some d =>
      match load_apps rest with
      | Except.error e => Except.error e
      | Except.ok apps => Except.ok (⟨s, t, d⟩ :: apps)
    | _, _, _ => Except.error "KeyError"

/-- The state of an `AppsManager` instance. -/
structure AppsManager where
  apps : List App
  user_app_map : List (Int × App)
  users_per_app : Int
deriving DecidableEq, Repr

/-- `AppsManager.__init__`: loads the pool; construction fails exactly when
`_load_apps` raises. -/
def AppsManager.mk' (rows : List AppRow) (users_per_app : Int) :
    Except String AppsManager :=
  match load_apps rows with
  | Except.error e => Except.error e
  | Except.ok apps => Except.ok ⟨apps, [], users_per_app⟩

/-- `AppsManager.assign_app_to_user`:
`app_index = (user_id // users_per_app) % len(self.apps)`.
Python `//` is floor division (`Int.fdiv`) and `%` with a positive modulus
is `Int.emod`; `// 0` and `% 0` raise `ZeroDivisionError`, modelled by
`none`. -/
def AppsManager.assign_app_to_user (m : AppsManager) (user_id : Int) :
    Option (App × AppsManager) :=
  if m.users_per_app = 0 then
    none
  else
    match m.apps with
    | [] => none
    | a :: rest =>
      let apps := a :: rest
      let app_index : Nat := ((user_id.fdiv m.users_per_app).emod (apps.length : Int)).toNat
      let app := apps.getD app_index a
      some (app, { m with user_app_map := (user_id, app) :: m.user_app_map })

/-- `AppsManager.get_app_for_user`: memoized lookup, falling back to
`assign_app_to_user`. -/
def AppsManager.get_app_for_user (m : AppsManager) (user_id : Int) :
    Option (App × AppsManager) :=
  match m.user_app_map.lookup user_id with
  | some app => some (app, m)
  | none => m.assign_app_to_user user_id

/-- Python truthiness of an `Optional[float]`: `None` and `0` are falsy. -/
def truthyQ : Option ℚ → Bool
  | none => false
  | some x => decide (x ≠ 0)

/-- The `Response` dataclass. -/
structure Response where
  body : String
  ttft : ℚ
  generation_time : ℚ
  prompt_tokens : Int
  generation_tokens : Int
  launch_time : ℚ
  finish_time : ℚ
deriving DecidableEq, Repr

/-- The `usage` block of a completion response. -/
structure Usage where
  completion_tokens : Int
  prompt_tokens : Int
deriving DecidableEq, Repr

/-- One element of `chunk.choices`. -/
structure StreamChoice where
  text : Option String
deriving DecidableEq, Repr

/-- One streamed chunk, together with the wall-clock time at which the
loop body observes it (the value `time.time()` would return there). -/
structure StreamChunk where
  choices : List StreamChoice
  usage : Option Usage
  arrival : ℚ
deriving DecidableEq, Repr

/-- The parameters passed to `client.completions.create`; an argument the
code does not pass is `none` (the client default). -/
structure CompletionRequest where
  model : String
  prompt : String
  stream : Bool
  max_tokens : Int
  temperature : Option ℚ
  extra_headers : Option (List (String × String))
  include_usage : Option Bool
deriving DecidableEq, Repr

/-- The streaming call of `_async_launch_request` (lines 202-215):
`temperature=0.0`, `extra_headers`, `stream_options={"include_usage": True}`. -/
def mkStreamRequest (model prompt : String) (max_tokens : Int)
    (extra_headers : Option (List (String × String))) : CompletionRequest :=
  ⟨model, prompt, true, max_tokens, some 0, extra_headers, some true⟩

/-- The fallback non-streaming call of `_async_launch_request`
(lines 238-243): only `model`, `prompt`, `stream=False` and `max_tokens`
are passed; `temperature` and `extra_headers` are left at their client
defaults. -/
def mkFallbackRequest (model prompt : String) (max_tokens : Int) : CompletionRequest :=
  ⟨model, prompt, false, max_tokens, none, none, none⟩

/-- Prompt flattening: `prompt += f"{role}: {content}\n"` over the turns. -/
def roleName : Role → String
  | Role.user => "user"
  | Role.assistant => "assistant"

/-- Build the flattened prompt from the chat turns. -/
def buildPrompt (messages : List Message) : String :=
  messages.foldl (fun acc msg => acc ++ roleName msg.role ++ ": " ++ msg.content ++ "\n") ""

/-- Accumulator of the streaming loop: `words` and `first_token_time`. -/
structure StreamAcc where
  words : String
  first_token_time : Option ℚ
deriving DecidableEq, Repr

/-- One iteration of `async for chunk in response`:
skip the chunk when `chunk.choices` is empty; otherwise, when
`chunk.choices[0].text` is not `None`, record the first-token time on the
first non-empty text and accumulate the text. -/
def processChunk (acc : StreamAcc) (c : StreamChunk) : StreamAcc :=
  match c.choices.head? with
  | none => acc
  | some choice =>
    match choice.text with
    | none => acc
    | some t =>
      { words := acc.words ++ t
        first_token_time :=
          if acc.first_token_time = none ∧ t ≠ "" then some c.arrival
          else acc.first_token_time }

/-- The whole streaming loop. -/
def processStream (chunks : List StreamChunk) : StreamAcc :=
  chunks.foldl processChunk ⟨"", none⟩

/-- Token counts read after the loop from the loop variable `chunk`, i.e.
from the final chunk of the stream; `(0, 0)` when its `usage` is `None`.
(When the stream is empty the code never reaches this read: it raises
`NameError`; callers guard that case.) -/
def streamTokens (chunks : List StreamChunk) : Int × Int :=
  match chunks.getLast? with
  | none => (0, 0)
  | some c =>
    match c.usage with
    | some u => (u.completion_tokens, u.prompt_tokens)
    | none => (0, 0)

/-- The condition of line 234: `tokens_out == 0 or tokens_prefill == 0`
after the streaming loop, triggering the fallback non-streaming call. -/
def fallbackIssued (chunks : List StreamChunk) : Bool :=
  let tk := streamTokens chunks
  decide (tk.1 = 0) || decide (tk.2 = 0)

instance exceptDecEq {ε α : Type} [DecidableEq ε] [DecidableEq α] :
    DecidableEq (Except ε α) := fun x y =>
  match x, y with
  | Except.error a, Except.error b =>
    if h : a = b then isTrue (by rw [h]) else isFalse (fun hc => by cases hc; exact h rfl)
  | Except.error _, Except.ok _ => isFalse (fun hc => by cases hc)
  | Except.ok _, Except.error _ => isFalse (fun hc => by cases hc)
  | Except.ok a, Except.ok b =>
    if h : a = b then isTrue (by rw [h]) else isFalse (fun hc => by cases hc; exact h rfl)

/-- Everything observable about one `_async_launch_request` execution:
the streaming request it issued, the fallback request (when issued), and
its outcome. -/
structure LaunchTrace where
  streamReq : CompletionRequest
  fallbackReq : Option CompletionRequest
  result : Except String Response
deriving DecidableEq, Repr

/-- `RequestExecutor._async_launch_request`.

External inputs: the observed stream `chunks`, the usage block of the
fallback response (`none` when the fallback call fails or carries no
usage; its failure is caught and tolerated), `start_time` (the
`time.time()` at entry) and `t_end` (the `time.time()` after the loop).
An empty stream leaves the loop variable `chunk` unbound, so the
post-loop `hasattr` on the unbound `chunk` raises `NameError`, which the
`except` clause re-raises. -/
def async_launch_request (model : String) (messages : List Message)
    (max_tokens : Int) (extra_headers : Option (List (String × String)))
    (chunks : List StreamChunk) (fallbackUsage : Option Usage)
    (start_time t_end : ℚ) : LaunchTrace :=
  let prompt := buildPrompt messages
  let streamReq := mkStreamRequest model prompt max_tokens extra_headers
  if chunks.isEmpty then
    ⟨streamReq, none, Except.error "NameError: name chunk is not defined"⟩
  else
    let acc := processStream chunks
    let tk := streamTokens chunks
    let issueFallback := fallbackIssued chunks
    let fallbackReq :=
      if issueFallback then some (mkFallbackRequest model prompt max_tokens) else none
    let tokens : Int × Int :=
      if issueFallback then
        match fallbackUsage with
        | some u => (u.completion_tokens, u.prompt_tokens)
        | none => tk
      else tk
    let ttft : ℚ :=
      if truthyQ acc.first_token_time then acc.first_token_time.getD 0 - start_time else 0
    let generation_time : ℚ :=
      if truthyQ acc.first_token_time then t_end - acc.first_token_time.getD 0 else 0
    ⟨streamReq, fallbackReq,
      Except.ok
        { body := acc.words
          ttft := ttft
          generation_time := generation_time
          prompt_tokens := tokens.2
          generation_tokens := tokens.1
          launch_time := start_time
          finish_time := t_end }⟩

/-- `WorkloadConfig` (fields relevant to the engine; `enable_user_id`,
`model` and the apps file path are carried for completeness). -/
structure WorkloadConfig where
  num_users : Nat
  system_prompt_len : Nat
  user_info_len : Nat
  answer_len : Int
  num_rounds : Int
  qps : ℚ
  model : String
  enable_user_id : Bool
  users_per_app : Int
deriving DecidableEq, Repr

/-- `UserConfig`. -/
structure UserConfig where
  user_id : Int
  system_prompt_len : Nat
  user_info_len : Nat
  answer_len : Int
  gap_between_requests : ℚ
  num_rounds : Int
  enable_user_id : Bool
deriving DecidableEq, Repr

/-- `UserConfig.new_user_config`:
`gap_between_requests = num_users / qps`. -/
def UserConfig.new_user_config (user_id : Int) (w : WorkloadConfig) : UserConfig :=
  { user_id := user_id
    system_prompt_len := w.system_prompt_len
    user_info_len := w.user_info_len
    answer_len := w.answer_len
    gap_between_requests := (w.num_users : ℚ) / w.qps
    num_rounds := w.num_rounds
    enable_user_id := w.enable_user_id }

/-- The mutable state of a `UserSession` (non-replay mode). -/
structure UserSession where
  user_config : UserConfig
  app : Option App
  last_request_time : Option ℚ
  chat_history : ChatHistory
  question_id : Int
  has_unfinished_request : Bool
  last_unfinished_log : ℚ
  prompt_lengths : List Int
  generation_lengths : List Int
  ttfts : List ℚ
  generation_times : List ℚ
  launch_times : List ℚ
  finish_times : List ℚ
  finished : Bool
deriving DecidableEq, Repr

/-- `UserSession.__init__`. -/
def UserSession.init (user_config : UserConfig) (app : Option App) : UserSession :=
  { user_config := user_config
    app := app
    last_request_time := none
    chat_history := []
    question_id := 0
    has_unfinished_request := false
    last_unfinished_log := 0
    prompt_lengths := []
    generation_lengths := []
    ttfts := []
    generation_times := []
    launch_times := []
    finish_times := []
    finished := false }

/-- `UserSession._update_result`: appends one metrics row, field by field. -/
def UserSession.update_result (s : UserSession) (r : Response) : UserSession :=
  { s with
    prompt_lengths := s.prompt_lengths ++ [r.prompt_tokens]
    generation_lengths := s.generation_lengths ++ [r.generation_tokens]
    ttfts := s.ttfts ++ [r.ttft]
    generation_times := s.generation_times ++ [r.generation_time]
    launch_times := s.launch_times ++ [r.launch_time]
    finish_times := s.finish_times ++ [r.finish_time] }

/-- `" ".join(["hi"] * length)`. -/
def gen_dummy_text (length : Nat) : String :=
  String.intercalate " " (List.replicate length "hi")

/-- `UserSession._build_system_prompt`. -/
def UserSession.build_system_prompt (s : UserSession) : String :=
  match s.app with
  | some app => app.systemPrompt
  | none =>
    "Hi, here\x27s some system prompt: " ++ gen_dummy_text s.user_config.system_prompt_len
      ++ ".For user " ++ toString s.user_config.user_id ++ ", "
      ++ "here are some other context: " ++ gen_dummy_text s.user_config.user_info_len ++ "."

/-- `UserSession._build_new_question`: increments `question_id` and builds
the question text; the 200-character random payload is an external input
(`randStr`). -/
def UserSession.build_new_question (s : UserSession) (randStr : String) :
    UserSession × String :=
  let s₂ := { s with question_id := s.question_id + 1 }
  (s₂,
    "Here\x27s question #" ++ toString s₂.question_id ++ ": can you tell me "
      ++ "a new long story with a happy ending? "
      ++ "Here\x27s a random string: " ++ randStr)

/-- `UserSession._get_all_rag_docs`. -/
def UserSession.get_all_rag_docs (s : UserSession) : String :=
  match s.app with
  | none => ""
  | some app =>
    match app.ragDocs with
    | [] => ""
    | docs => String.intercalate "\n" docs

/-- `UserSession._launch_new_request` (non-replay branch): builds the
question, prefixes the RAG documents, prepends the system prompt on the
first turn, appends the user turn (`none` when that assertion fails), and
marks the request in flight with `last_request_time = timestamp`. The
actual network submission is the environment's side; `max_tokens` is
`answer_len` and the header is `{"x-user-id": str(user_id)}`. -/
def UserSession.launch_new_request (s : UserSession) (timestamp : ℚ)
    (randStr : String) : Option UserSession :=
  let sq := s.build_new_question randStr
  let s₂ := sq.1
  let prompt₀ := s₂.get_all_rag_docs ++ sq.2
  let prompt :=
    if s₂.chat_history.length = 0 then s₂.build_system_prompt ++ prompt₀ else prompt₀
  match s₂.chat_history.on_user_query prompt with
  | none => none
  | some h =>
    some { s₂ with
      chat_history := h
      has_unfinished_request := true
      last_request_time := some timestamp }

/-- The observable outcome of one `UserSession.step` call. -/
structure StepResult where
  session : UserSession
  fired : Bool
  warned : Bool
deriving DecidableEq, Repr

/-- `UserSession.step`, evaluated at wall-clock time `timestamp`;
`fired` records whether a request was dispatched to the executor and
`warned` whether the backpressure warning was logged. -/
def UserSession.step (s : UserSession) (timestamp : ℚ) (randStr : String) :
    Option StepResult :=
  if s.question_id ≥ s.user_config.num_rounds ∧ s.has_unfinished_request = false then
    some ⟨{ s with finished := true }, false, false⟩
  else
    match s.last_request_time with
    | none => (s.launch_new_request timestamp randStr).map fun s₂ => ⟨s₂, true, false⟩
    | some lrt =>
      if timestamp - lrt > s.user_config.gap_between_requests then
        if s.has_unfinished_request then
          if timestamp - s.last_unfinished_log > 10 then
            some ⟨{ s with last_unfinished_log := timestamp }, false, true⟩
          else
            some ⟨s, false, false⟩
        else
          (s.launch_new_request timestamp randStr).map fun s₂ => ⟨s₂, true, false⟩
      else
        some ⟨s, false, false⟩

/-- `UserSession._on_request_finished`: appends the reply as an assistant
turn (`none` when the `on_system_response` assertions fail), clears the
in-flight flag, appends the metrics row. -/
def UserSession.on_request_finished (s : UserSession) (r : Response) :
    Option UserSession :=
  match s.chat_history.on_system_response r.body with
  | none => none
  | some h =>
    some (UserSession.update_result
      { s with chat_history := h, has_unfinished_request := false } r)

/-- Python `int()` applied to a float: truncation toward zero. -/
def truncQ (q : ℚ) : Int :=
  if 0 ≤ q then ⌊q⌋ else ⌈q⌉

/-- `UserSession.set_internal_state`: requires an empty conversation
(assertion modelled by `none`), fast-forwards `question_id` and
`last_request_time` as if the session had started `offset` seconds ago. -/
def UserSession.set_internal_state (s : UserSession) (offset timestamp : ℚ) :
    Option UserSession :=
  if s.chat_history.length = 0 then
    let num_passed_questions : Int := truncQ (offset / s.user_config.gap_between_requests) + 1
    let passed_time : ℚ := ((num_passed_questions : ℚ) - 1) * s.user_config.gap_between_requests
    some { s with
      last_request_time := some (timestamp - offset + passed_time)
      question_id := num_passed_questions }
  else
    none

/-- One session together with the number of its outstanding executor
calls: `launch_request` hands the coroutine to the background loop, and
each outstanding call produces exactly one completion or one error. -/
structure SysState where
  session : UserSession
  inflight : Nat
deriving DecidableEq, Repr

/-- Initial system state: a fresh session, nothing in flight. -/
def SysState.init (uc : UserConfig) (app : Option App) : SysState :=
  ⟨UserSession.init uc app, 0⟩

/-- An event of the session-level concurrent system: a scheduler tick, a
successful completion (the future resolves and `finish_callback` runs), or
a transport/protocol error (`x.result()` re-raises inside the done
callback, so `finish_callback` never runs). -/
inductive Event where
  | tick (timestamp : ℚ) (randStr : String)
  | finishOk (r : Response)
  | finishErr
deriving DecidableEq, Repr

/-- Apply one event. Completion events require an outstanding call. -/
def applyEvent (st : SysState) : Event → Option SysState
  | Event.tick t rand =>
    (st.session.step t rand).map fun res =>
      ⟨res.session, if res.fired then st.inflight + 1 else st.inflight⟩
  | Event.finishOk r =>
    if st.inflight = 0 then none
    else (st.session.on_request_finished r).map fun s₂ => ⟨s₂, st.inflight - 1⟩
  | Event.finishErr =>
    if st.inflight = 0 then none
    else some ⟨st.session, st.inflight - 1⟩

/-- Run a list of events in order. -/
def runEvents (st : SysState) : List Event → Option SysState
  | [] => some st
  | e :: es =>
    match applyEvent st e with
    | none => none
    | some st₂ => runEvents st₂ es

/-- One row of the reporting DataFrame produced by `UserSession.summary`
and consumed by `ProcessSummary`. -/
structure Row where
  prompt_tokens : Int
  generation_tokens : Int
  ttft : ℚ
  generation_time : ℚ
  user_id : Int
  question_id : Int
  launch_time : ℚ
  finish_time : ℚ
deriving DecidableEq, Repr

/-- `UserSession.summary`: one row per recorded request, with
`question_id = range(1, len + 1)`. The six metric columns always have
equal length in reachable states. -/
def UserSession.summary (s : UserSession) : List Row :=
  (List.range s.prompt_lengths.length).map fun i =>
    { prompt_tokens := s.prompt_lengths.getD i 0
      generation_tokens := s.generation_lengths.getD i 0
      ttft := s.ttfts.getD i 0
      generation_time := s.generation_times.getD i 0
      user_id := s.user_config.user_id
      question_id := (i : Int) + 1
      launch_time := s.launch_times.getD i 0
      finish_time := s.finish_times.getD i 0 }

/-- The state of a `UserSessionManager`. -/
structure ManagerState where
  workload : WorkloadConfig
  sessions : List UserSession
  apps_manager : AppsManager
  gap_between_users : ℚ
  ramp_up_time : ℚ
  user_id : Int
  last_user_join : ℚ
  session_summaries : List (List Row)
  start_time : Option ℚ
  need_ramp_up : Bool
deriving DecidableEq, Repr

/-- `UserSessionManager.__init__` (non-replay mode):
`gap_between_users = (num_users / qps) * (num_rounds - 1) / num_users` and
`ramp_up_time = num_users * gap_between_users`; fails exactly when the
`AppsManager` construction fails. -/
def ManagerState.mk' (w : WorkloadConfig) (appRows : List AppRow)
    (init_user_id : Int) : Except String ManagerState :=
  match AppsManager.mk' appRows w.users_per_app with
  | Except.error e => Except.error e
  | Except.ok am =>
    let gap_between_requests_per_user : ℚ := (w.num_users : ℚ) / w.qps
    let session_alive_time : ℚ := gap_between_requests_per_user * ((w.num_rounds : ℚ) - 1)
    let gap_between_users : ℚ := session_alive_time / ((w.num_users : ℚ) + 0)
    Except.ok
      { workload := w
        sessions := []
        apps_manager := am
        gap_between_users := gap_between_users
        ramp_up_time := (w.num_users : ℚ) * gap_between_users
        user_id := init_user_id
        last_user_join := 0
        session_summaries := []
        start_time := none
        need_ramp_up := true }

/-- `UserSessionManager._create_user_session`: increments `user_id`,
derives the user config, assigns an app (`none` models the
`ZeroDivisionError` of an empty pool), creates the session and appends it
to `sessions`. Returns the new session together with the new manager
state. -/
def ManagerState.create_user_session (m : ManagerState) :
    Option (UserSession × ManagerState) :=
  let user_id := m.user_id + 1
  let uc := UserConfig.new_user_config user_id m.workload
  match m.apps_manager.get_app_for_user user_id with
  | none => none
  | some (app, am₂) =>
    let s := UserSession.init uc (some app)
    some (s,
      { m with
        user_id := user_id
        apps_manager := am₂
        sessions := m.sessions ++ [s] })

/-- The loop body of `UserSessionManager._ramp_up`, iterating `i` from its
current value while `remaining` counts the iterations left
(`remaining = num_users - i`). Each iteration creates a session, records
the join time, computes `offset = ramp_up_time - i * gap_between_users`,
breaks when `offset < 0`, and otherwise back-dates the just-created
session (the last element of `sessions`) via `set_internal_state`. -/
def rampUpFrom (timestamp ramp_up_time : ℚ) : Nat → Nat → ManagerState →
    Option ManagerState
  | _, 0, m => some { m with need_ramp_up := false }
  | i, r + 1, m =>
    match m.create_user_session with
    | none => none
    | some sm =>
      let m₂ := { sm.2 with last_user_join := timestamp }
      let offset := ramp_up_time - (i : ℚ) * m₂.gap_between_users
      if offset < 0 then
        some { m₂ with need_ramp_up := false }
      else
        match sm.1.set_internal_state offset timestamp with
        | none => none
        | some s₂ =>
          rampUpFrom timestamp ramp_up_time (i + 1) r
            { m₂ with sessions := m₂.sessions.dropLast ++ [s₂] }

/-- `UserSessionManager._ramp_up`. -/
def ManagerState.ramp_up (m : ManagerState) (timestamp : ℚ) : Option ManagerState :=
  rampUpFrom timestamp m.ramp_up_time 0 m.workload.num_users m

/-- Step every active session in order (the `for session in self.sessions`
loop); an assertion failure in any session aborts the run. The random
question payloads are external inputs, one per session, supplied by
`rand` as a function of the session's user id. -/
def stepAllSessions (t : ℚ) (rand : Int → String) :
    List UserSession → Option (List UserSession)
  | [] => some []
  | s :: rest =>
    match s.step t (rand s.user_config.user_id) with
    | none => none
    | some res => (stepAllSessions t rand rest).map fun ss => res.session :: ss

/-- `UserSessionManager._remove_finished_sessions`: archive the summaries
of finished sessions and drop them from the active list. -/
def ManagerState.remove_finished_sessions (m : ManagerState) : ManagerState :=
  { m with
    session_summaries :=
      m.session_summaries ++ (m.sessions.filter (fun s => s.finished)).map UserSession.summary
    sessions := m.sessions.filter (fun s => !s.finished) }

/-- The `if self.start_time is None: self.start_time = timestamp` phase
of `UserSessionManager.step`. -/
def ManagerState.record_start_time (m : ManagerState) (timestamp : ℚ) : ManagerState :=
  if m.start_time = none then { m with start_time := some timestamp } else m

/-- The admission phase of `UserSessionManager.step` (lines 568-575):
admit exactly one new session when the active population is below
`num_users` and the time since the last join exceeds
`gap_between_users`. -/
def ManagerState.admit_new_user (m : ManagerState) (timestamp : ℚ) :
    Option ManagerState :=
  if (m.workload.num_users : Int) > (m.sessions.length : Int)
      ∧ timestamp - m.last_user_join > m.gap_between_users then
    (m.create_user_session).map fun sm => { sm.2 with last_user_join := timestamp }
  else
    some m

/-- `UserSessionManager.step`, composed of its phases in source order. -/
def ManagerState.step (m : ManagerState) (timestamp : ℚ) (rand : Int → String) :
    Option ManagerState :=
  match (if m.need_ramp_up then m.ramp_up timestamp else some m) with
  | none => none
  | some m₁ =>
    match (m₁.record_start_time timestamp).admit_new_user timestamp with
    | none => none
    | some m₃ =>
      match stepAllSessions timestamp rand m₃.sessions with
      | none => none
      | some ss => some (ManagerState.remove_finished_sessions { m₃ with sessions := ss })

/-- An event of the manager-level concurrent system: a controller tick, a
successful completion delivered to the `i`-th active session, or a
transport error on some outstanding call (whose callback re-raises, so no
session state changes). -/
inductive MEvent where
  | tick (timestamp : ℚ)
  | deliver (i : Nat) (r : Response)
  | deliverErr
deriving Repr

/-- Apply one manager-level event; ticks use `rand` for the sessions'
random question payloads. -/
def applyMEvent (rand : Int → String) (m : ManagerState) : MEvent → Option ManagerState
  | MEvent.tick t => m.step t rand
  | MEvent.deliver i r =>
    match m.sessions[i]? with
    | none => none
    | some s => (s.on_request_finished r).map fun s₂ => { m with sessions := m.sessions.set i s₂ }
  | MEvent.deliverErr => some m

/-- Run a list of manager-level events in order. -/
def runMEvents (rand : Int → String) (m : ManagerState) : List MEvent → Option ManagerState
  | [] => some m
  | e :: es =>
    match applyMEvent rand m e with
    | none => none
    | some m₂ => runMEvents rand m₂ es

/-- The outcome of `UserSessionManager.ProcessSummary` relevant to the
windowing logic: the launched-query count, the retained (finished) rows,
and the effective window bounds after back-filling. -/
structure SummaryOutcome where
  launched_queries : Nat
  finished : List Row
  eff_start : Option ℚ
  eff_end : Option ℚ
deriving DecidableEq, Repr

/-- `UserSessionManager.ProcessSummary` (windowing part): the
`if start_time and end_time` guard uses Python truthiness, so the
`[start_time, end_time]` restriction runs only when both bounds are
truthy (neither `None` nor `0`); afterwards a bound that is `None` is
back-filled from the (possibly filtered) data. -/
def ProcessSummary (df : List Row) (start_time end_time : Option ℚ) : SummaryOutcome :=
  let filt := truthyQ start_time && truthyQ end_time
  let launched_queries :=
    if filt then
      (df.filter fun r =>
        decide (start_time.getD 0 ≤ r.launch_time) && decide (r.launch_time ≤ end_time.getD 0)).length
    else
      df.length
  let df₂ :=
    if filt then
      df.filter fun r =>
        decide (start_time.getD 0 ≤ r.finish_time) && decide (r.finish_time ≤ end_time.getD 0)
    else
      df
  let eff_start :=
    match start_time with
    | none => (df₂.map Row.launch_time).min?
    | some s => some s
  let eff_end :=
    match end_time with
    | none => (df₂.map Row.finish_time).max?
    | some e => some e
  ⟨launched_queries, df₂, eff_start, eff_end⟩

/-- The per-session exclusivity invariant of the concurrent system: never
more than one outstanding call; an outstanding call implies the in-flight
flag; before the first launch the flag is down and nothing is
outstanding. -/
def SysInv (st : SysState) : Prop :=
  st.inflight ≤ 1 ∧
  (st.inflight = 1 → st.session.has_unfinished_request = true) ∧
  (st.session.last_request_time = none →
    st.session.has_unfinished_request = false ∧ st.inflight = 0)

/-- A chat history whose `i`-th turn is a user turn for even `i` and an
assistant turn for odd `i`: strict alternation starting from the user. -/
def alternatesFromUser (h : ChatHistory) : Prop :=
  ∀ i (hi : i < h.length),
    (h.get ⟨i, hi⟩).role = if i % 2 = 0 then Role.user else Role.assistant

/-- The admission-counting invariant of the manager: before ramp-up the
user counter is untouched; afterwards, `k` post-ramp admissions have
happened, the last join time lies in the observation window, and the
join times are spaced more than `g` apart, forcing `k * g` below the
distance of the last join from the window start. -/
def AdmissionInv (init : Int) (n : Nat) (g wStart T : ℚ) (m : ManagerState) : Prop :=
  (m.need_ramp_up = true ∧ m.user_id = init) ∨
  (m.need_ramp_up = false ∧ ∃ k : ℕ,
    m.user_id ≤ init + (n : Int) + (k : Int) ∧
    ((k = 0 ∧ (n = 0 ∨ (wStart ≤ m.last_user_join ∧ m.last_user_join ≤ wStart + T))) ∨
     (1 ≤ k ∧ wStart ≤ m.last_user_join ∧ m.last_user_join ≤ wStart + T ∧
       (k : ℚ) * g < m.last_user_join - wStart)))

/-- The offset the ramp-up loop computes for the `i`-th created session:
`offset = ramp_up_time - i * self.gap_between_users` (line 530). -/
def rampOffset (m : ManagerState) (i : Nat) : ℚ :=
  m.ramp_up_time - (i : ℚ) * m.gap_between_users

/-- A demo app profile. -/
def demoApp : App := ⟨"sys", "toolspec", []⟩

/-- A one-element parsed apps file. -/
def demoRows : List AppRow := [⟨some "sys", some "toolspec", some []⟩]

/-- Demo workload: 2 users, qps 2, 3 rounds, so
`gap_between_requests = 1`, `gap_between_users = 1`, `ramp_up_time = 2`. -/
def demoWorkload : WorkloadConfig :=
  { num_users := 2
    system_prompt_len := 0
    user_info_len := 0
    answer_len := 5
    num_rounds := 3
    qps := 2
    model := "m"
    enable_user_id := false
    users_per_app := 2 }

/-- Demo workload for admission claims: 1 user, qps 1, 2 rounds, so
`gap_between_users = 1` and `ramp_up_time = 1`. -/
def demoW7 : WorkloadConfig :=
  { num_users := 1
    system_prompt_len := 0
    user_info_len := 0
    answer_len := 5
    num_rounds := 2
    qps := 1
    model := "m"
    enable_user_id := false
    users_per_app := 2 }

/-- The manager `ManagerState.mk' demoW7 demoRows 0` produces. -/
def demoManager7 : ManagerState :=
  { workload := demoW7
    sessions := []
    apps_manager := ⟨[demoApp], [], 2⟩
    gap_between_users := 1
    ramp_up_time := 1
    user_id := 0
    last_user_join := 0
    session_summaries := []
    start_time := none
    need_ramp_up := true }

/-- `demoManager7` after its ramp-up has been marked done. -/
def demoManager7Ramped : ManagerState := { demoManager7 with need_ramp_up := false }

/-- A ramped manager with a zero-user target: its ticks never admit. -/
def demoManager0 : ManagerState :=
  { workload := { demoW7 with num_users := 0 }
    sessions := []
    apps_manager := ⟨[demoApp], [], 2⟩
    gap_between_users := 1
    ramp_up_time := 0
    user_id := 0
    last_user_join := 0
    session_summaries := []
    start_time := none
    need_ramp_up := false }

/-- The manager `ManagerState.mk' demoWorkload demoRows 0` produces. -/
def demoManager3 : ManagerState :=
  { workload := demoWorkload
    sessions := []
    apps_manager := ⟨[demoApp], [], 2⟩
    gap_between_users := 1
    ramp_up_time := 2
    user_id := 0
    last_user_join := 0
    session_summaries := []
    start_time := none
    need_ramp_up := true }

/-- The session the ramp-up of `demoManager3` at time `0` leaves at index
`k` (`k = 0` was back-dated by offset `2`, `k = 1` by offset `1`). -/
def demoRampSession (uid qid : Int) : UserSession :=
  { user_config :=
      { user_id := uid
        system_prompt_len := 0
        user_info_len := 0
        answer_len := 5
        gap_between_requests := 1
        num_rounds := 3
        enable_user_id := false }
    app := some demoApp
    last_request_time := some 0
    chat_history := []
    question_id := qid
    has_unfinished_request := false
    last_unfinished_log := 0
    prompt_lengths := []
    generation_lengths := []
    ttfts := []
    generation_times := []
    launch_times := []
    finish_times := []
    finished := false }

/-- `demoManager3` after `ramp_up` at time `0`. -/
def demoManager3Ramped : ManagerState :=
  { workload := demoWorkload
    sessions := [demoRampSession 1 3, demoRampSession 2 2]
    apps_manager := ⟨[demoApp], [(2, demoApp), (1, demoApp)], 2⟩
    gap_between_users := 1
    ramp_up_time := 2
    user_id := 2
    last_user_join := 0
    session_summaries := []
    start_time := none
    need_ramp_up := false }

/-- A demo user config (2 rounds, unit pacing gap). -/
def demoUC : UserConfig :=
  { user_id := 1
    system_prompt_len := 0
    user_info_len := 0
    answer_len := 5
    gap_between_requests := 1
    num_rounds := 2
    enable_user_id := false }

/-- A demo user config with zero rounds: a fresh session finishes at once. -/
def demoUC0 : UserConfig := { demoUC with num_rounds := 0 }

/-- A demo metrics row. -/
def demoRow : Row :=
  { prompt_tokens := 10
    generation_tokens := 20
    ttft := 1/2
    generation_time := 2
    user_id := 1
    question_id := 1
    launch_time := 3
    finish_time := 6 }

/-! ## Supporting lemmas -/

theorem on_user_query_none_iff (h : ChatHistory) (q : String) :
    h.on_user_query q = none ↔
      h ≠ [] ∧ h.getLast?.map Message.role ≠ some Role.assistant := by
  cases h with
  | nil => simp [ChatHistory.on_user_query]
  | cons a t =>
    by_cases hl : (a :: t).getLast?.map Message.role = some Role.assistant
    · simp [ChatHistory.on_user_query, hl]
    · simp [ChatHistory.on_user_query, hl]

theorem on_system_response_none_iff (h : ChatHistory) (r : String) :
    h.on_system_response r = none ↔
      h = [] ∨ h.getLast?.map Message.role ≠ some Role.user := by
  cases h with
  | nil => simp [ChatHistory.on_system_response]
  | cons a t =>
    by_cases hl : (a :: t).getLast?.map Message.role = some Role.user
    · simp [ChatHistory.on_system_response, hl]
    · simp [ChatHistory.on_system_response, hl]

theorem alternates_append (h : ChatHistory) (x : Message)
    (ha : alternatesFromUser h)
    (hx : x.role = if h.length % 2 = 0 then Role.user else Role.assistant) :
    alternatesFromUser (h ++ [x]) := by
  intro i hi
  have hi2 : i < h.length + 1 := by simpa using hi
  rcases Nat.lt_or_ge i h.length with hlt | hge
  · have : (h ++ [x]).get ⟨i, hi⟩ = h.get ⟨i, hlt⟩ := by
      simp [List.getElem_append_left hlt]
    rw [this]
    exact ha i hlt
  · have hieq : i = h.length := by omega
    subst hieq
    have : (h ++ [x]).get ⟨h.length, hi⟩ = x := by
      simp
    rw [this]
    exact hx

theorem getLast?_role (h : ChatHistory) (hne : h ≠ [])
    (ha : alternatesFromUser h) :
    h.getLast?.map Message.role =
      some (if (h.length - 1) % 2 = 0 then Role.user else Role.assistant) := by
  have hpos : 0 < h.length := List.length_pos.mpr hne
  have hlt : h.length - 1 < h.length := by omega
  rw [List.getLast?_eq_getElem?, List.getElem?_eq_getElem hlt]
  have := ha (h.length - 1) hlt
  rw [List.get_eq_getElem] at this
  simp [this]

theorem alternates_user_query (h h₂ : ChatHistory) (q : String)
    (ha : alternatesFromUser h) (hq : h.on_user_query q = some h₂) :
    alternatesFromUser h₂ := by
  unfold ChatHistory.on_user_query at hq
  by_cases h0 : h.length = 0
  · rw [if_pos h0] at hq
    simp only [Option.some.injEq] at hq
    subst hq
    apply alternates_append h _ ha
    simp [h0]
  · rw [if_neg h0] at hq
    by_cases hl : h.getLast?.map Message.role = some Role.assistant
    · rw [if_pos hl] at hq
      simp only [Option.some.injEq] at hq
      subst hq
      apply alternates_append h _ ha
      have hne : h ≠ [] := fun hnil => h0 (by simp [hnil])
      rw [getLast?_role h hne ha] at hl
      have hodd : ¬((h.length - 1) % 2 = 0) := by
        intro he
        rw [if_pos he] at hl
        simp at hl
      have hev : h.length % 2 = 0 := by omega
      simp [hev]
    · rw [if_neg hl] at hq
      simp at hq

theorem alternates_system_response (h h₂ : ChatHistory) (r : String)
    (ha : alternatesFromUser h) (hr : h.on_system_response r = some h₂) :
    alternatesFromUser h₂ := by
  unfold ChatHistory.on_system_response at hr
  by_cases h0 : h.length = 0
  · rw [if_pos h0] at hr
    simp at hr
  · rw [if_neg h0] at hr
    by_cases hl : h.getLast?.map Message.role = some Role.user
    · rw [if_pos hl] at hr
      simp only [Option.some.injEq] at hr
      subst hr
      apply alternates_append h _ ha
      have hne : h ≠ [] := fun hnil => h0 (by simp [hnil])
      rw [getLast?_role h hne ha] at hl
      have hev0 : (h.length - 1) % 2 = 0 := by
        by_contra he
        rw [if_neg he] at hl
        simp at hl
      have hodd : ¬(h.length % 2 = 0) := by omega
      simp [hodd]
    · rw [if_neg hl] at hr
      simp at hr

theorem alternates_applyOps (ops : List ChatOp) :
    ∀ (h h₂ : ChatHistory), alternatesFromUser h →
      h.applyOps ops = some h₂ → alternatesFromUser h₂ := by
  induction ops with
  | nil =>
    intro h h₂ ha happ
    unfold ChatHistory.applyOps at happ
    cases happ
    exact ha
  | cons op rest ih =>
    intro h h₂ ha happ
    cases op with
    | userQuery q =>
      unfold ChatHistory.applyOps at happ
      cases hq : h.on_user_query q with
      | none => rw [hq] at happ; cases happ
      | some hmid =>
        rw [hq] at happ
        exact ih hmid h₂ (alternates_user_query h hmid q ha hq) happ
    | systemResponse r =>
      unfold ChatHistory.applyOps at happ
      cases hr : h.on_system_response r with
      | none => rw [hr] at happ; cases happ
      | some hmid =>
        rw [hr] at happ
        exact ih hmid h₂ (alternates_system_response h hmid r ha hr) happ

theorem alternates_nil : alternatesFromUser [] := by
  intro i hi
  simp at hi

/-! ## Claim theorems -/

/-- C8: `ChatHistory` preserves strict alternation: appending a user turn
fails exactly when the history is non-empty with a non-assistant last
turn; appending an assistant turn fails exactly when the history is empty
or its last turn is not a user turn; and every history reachable from the
empty one never holds two consecutive turns of the same role and never
starts with an assistant turn. -/
theorem c8_chat_alternation :
    (∀ (h : ChatHistory) (q : String),
        h.on_user_query q = none ↔
          h ≠ [] ∧ h.getLast?.map Message.role ≠ some Role.assistant) ∧
    (∀ (h : ChatHistory) (r : String),
        h.on_system_response r = none ↔
          h = [] ∨ h.getLast?.map Message.role ≠ some Role.user) ∧
    (∀ (ops : List ChatOp) (h : ChatHistory),
        ChatHistory.applyOps [] ops = some h →
        (∀ i (hi : i < h.length) (hj : i + 1 < h.length),
            (h.get ⟨i, hi⟩).role ≠ (h.get ⟨i + 1, hj⟩).role) ∧
        (∀ m, h.head? = some m → m.role = Role.user)) := by
  refine ⟨on_user_query_none_iff, on_system_response_none_iff, ?_⟩
  intro ops h happ
  have ha : alternatesFromUser h := alternates_applyOps ops [] h alternates_nil happ
  constructor
  · intro i hi hj
    rw [ha i hi, ha (i + 1) hj]
    rcases Nat.mod_two_eq_zero_or_one i with he | ho
    · have : (i + 1) % 2 = 1 := by omega
      simp [he, this]
    · have : (i + 1) % 2 = 0 := by omega
      simp [ho, this]
  · intro m hm
    cases h with
    | nil => cases hm
    | cons a t =>
      simp only [List.head?_cons, Option.some_inj] at hm
      subst hm
      have := ha 0 (by simp)
      simpa using this

/-- Witness for C8: a user turn followed by an assistant turn is accepted
and alternates. -/
theorem c8_witness :
    (([⟨Role.user, "a"⟩, ⟨Role.assistant, "b"⟩] : ChatHistory).get ⟨0, by decide⟩).role ≠
      (([⟨Role.user, "a"⟩, ⟨Role.assistant, "b"⟩] : ChatHistory).get ⟨1, by decide⟩).role :=
  (c8_chat_alternation.2.2 [ChatOp.userQuery "a", ChatOp.systemResponse "b"]
      [⟨Role.user, "a"⟩, ⟨Role.assistant, "b"⟩] (by decide)).1 0 (by decide) (by decide)

/-- C5 counterexample: loading an empty apps pool does NOT abort
`AppsManager` construction; the construction succeeds with an empty pool
and the failure only surfaces in `assign_app_to_user` (a
`ZeroDivisionError` from `% len(self.apps)`). -/
theorem c5_counterexample :
    AppsManager.mk' [] 2 = Except.ok ⟨[], [], 2⟩ ∧
    AppsManager.assign_app_to_user ⟨[], [], 2⟩ 1 = none := by
  decide

/-- C5 (amended): with an empty app pool, `AppsManager` construction
succeeds; every later assignment fails (division by zero on the empty
pool), including through the memoized `get_app_for_user` path. -/
theorem c5_empty_pool_defers_failure :
    (∀ upa : Int, AppsManager.mk' [] upa = Except.ok ⟨[], [], upa⟩) ∧
    (∀ (m : AppsManager) (uid : Int), m.apps = [] →
        m.assign_app_to_user uid = none) ∧
    (∀ (m : AppsManager) (uid : Int), m.apps = [] → m.user_app_map = [] →
        m.get_app_for_user uid = none) := by
  refine ⟨fun upa => rfl, ?_, ?_⟩
  · intro m uid hempty
    unfold AppsManager.assign_app_to_user
    by_cases hupa : m.users_per_app = 0
    · rw [if_pos hupa]
    · rw [if_neg hupa]
      rw [hempty]
  · intro m uid hempty hmap
    unfold AppsManager.get_app_for_user
    rw [hmap]
    simp only [List.lookup_nil]
    unfold AppsManager.assign_app_to_user
    by_cases hupa : m.users_per_app = 0
    · rw [if_pos hupa]
    · rw [if_neg hupa]
      rw [hempty]

/-- Witness for C5's amended theorem at a concrete manager. -/
theorem c5_witness :
    AppsManager.assign_app_to_user ⟨[], [], 5⟩ 7 = none :=
  c5_empty_pool_defers_failure.2.1 ⟨[], [], 5⟩ 7 rfl

/-- C10: `ProcessSummary` restricts to the `[start_time, end_time]` window
only when both bounds are truthy; when either is `None` or `0`, no
launch-time or finish-time filtering happens, `launched_queries` is the
total row count, and only `None` bounds are back-filled from the data
(a `0` bound is kept as `0`). -/
theorem c10_process_summary_window :
    (∀ (df : List Row) (st et : Option ℚ),
        st = none ∨ st = some 0 ∨ et = none ∨ et = some 0 →
        (ProcessSummary df st et).launched_queries = df.length ∧
        (ProcessSummary df st et).finished = df) ∧
    (∀ (df : List Row) (s e : ℚ), s ≠ 0 → e ≠ 0 →
        (ProcessSummary df (some s) (some e)).launched_queries =
          (df.filter fun r =>
            decide (s ≤ r.launch_time) && decide (r.launch_time ≤ e)).length ∧
        (ProcessSummary df (some s) (some e)).finished =
          df.filter fun r =>
            decide (s ≤ r.finish_time) && decide (r.finish_time ≤ e)) ∧
    (∀ (df : List Row) (et : Option ℚ),
        (ProcessSummary df none et).eff_start = (df.map Row.launch_time).min?) ∧
    (∀ (df : List Row) (st : Option ℚ),
        (ProcessSummary df st none).eff_end = (df.map Row.finish_time).max?) ∧
    (∀ (df : List Row) (s : ℚ) (et : Option ℚ),
        (ProcessSummary df (some s) et).eff_start = some s) ∧
    (∀ (df : List Row) (e : ℚ) (st : Option ℚ),
        (ProcessSummary df st (some e)).eff_end = some e) := by
  have hfalse : ∀ (st et : Option ℚ),
      st = none ∨ st = some 0 ∨ et = none ∨ et = some 0 →
      (truthyQ st && truthyQ et) = false := by
    intro st et hc
    rcases hc with rfl | rfl | rfl | rfl <;> simp [truthyQ]
  refine ⟨?_, ?_, ?_, ?_, ?_, ?_⟩
  · intro df st et hc
    simp [ProcessSummary, hfalse st et hc]
  · intro df s e hs he
    have ht : (truthyQ (some s) && truthyQ (some e)) = true := by simp [truthyQ, hs, he]
    constructor <;> simp [ProcessSummary, ht]
  · intro df et
    have hf : (truthyQ none && truthyQ et) = false := by simp [truthyQ]
    simp [ProcessSummary, hf]
  · intro df st
    have hf : (truthyQ st && truthyQ none) = false := by simp [truthyQ]
    simp [ProcessSummary, hf]
  · intro df s et
    simp [ProcessSummary]
  · intro df e st
    simp [ProcessSummary]

/-- Witness for C10: a window starting at time `0` disables all
filtering. -/
theorem c10_witness :
    (ProcessSummary [demoRow] (some 0) (some 5)).launched_queries = [demoRow].length ∧
    (ProcessSummary [demoRow] (some 0) (some 5)).finished = [demoRow] :=
  c10_process_summary_window.1 [demoRow] (some 0) (some 5) (Or.inr (Or.inl rfl))

theorem processStream_all_empty (chunks : List StreamChunk)
    (hempty : ∀ c ∈ chunks, ∀ ch, c.choices.head? = some ch →
      ch.text = none ∨ ch.text = some "") :
    processStream chunks = ⟨"", none⟩ := by
  suffices hgen : ∀ (acc : StreamAcc), List.foldl processChunk acc chunks = acc by
    exact hgen ⟨"", none⟩
  induction chunks with
  | nil => intro acc; rfl
  | cons c rest ih =>
    intro acc
    have hstep : processChunk acc c = acc := by
      cases hh : c.choices.head? with
      | none =>
        unfold processChunk
        rw [hh]
      | some ch =>
        rcases hempty c (by simp) ch hh with ht | ht <;>
          (unfold processChunk; rw [hh]; simp [ht])
    rw [List.foldl_cons, hstep]
    exact ih (fun c₂ hc₂ ch hch => hempty c₂ (by simp [hc₂]) ch hch) acc

/-- C9 counterexample: a streaming call that completes after zero chunks
does NOT return a `Response`: the post-loop `hasattr` on the unbound `chunk`
reads the unbound loop variable and raises, so the round fails. -/
theorem c9_counterexample :
    (async_launch_request "m" [] 16 none [] none 0 0).result =
      Except.error "NameError: name chunk is not defined" := by
  rfl

/-- C9 (amended): provided the stream yields at least one chunk, if no
chunk carries a non-empty text the executor still returns a `Response`
successfully, with empty body, `ttft = 0` and `generation_time = 0`;
with zero chunks the call instead raises. -/
theorem c9_no_token_response (model : String) (messages : List Message)
    (mt : Int) (eh : Option (List (String × String)))
    (chunks : List StreamChunk) (fu : Option Usage) (st te : ℚ)
    (hne : chunks ≠ [])
    (hempty : ∀ c ∈ chunks, ∀ ch, c.choices.head? = some ch →
      ch.text = none ∨ ch.text = some "") :
    ∃ r, (async_launch_request model messages mt eh chunks fu st te).result =
        Except.ok r ∧
      r.body = "" ∧ r.ttft = 0 ∧ r.generation_time = 0 := by
  have hps : processStream chunks = ⟨"", none⟩ := processStream_all_empty chunks hempty
  have hie : chunks.isEmpty = false := by
    cases chunks with
    | nil => exact absurd rfl hne
    | cons a t => rfl
  simp only [async_launch_request, hie, Bool.false_eq_true, if_false, hps, truthyQ]
  exact ⟨_, rfl, rfl, rfl, rfl⟩

/-- Witness for C9's amended theorem: one chunk with empty text. -/
theorem c9_witness :
    ∃ r, (async_launch_request "m" [] 16 none [⟨[⟨some ""⟩], none, 1⟩] none 0 0).result =
        Except.ok r ∧
      r.body = "" ∧ r.ttft = 0 ∧ r.generation_time = 0 :=
  c9_no_token_response "m" [] 16 none [⟨[⟨some ""⟩], none, 1⟩] none 0 0
    (by decide)
    (by
      intro c hc ch hch
      simp only [List.mem_singleton] at hc
      subst hc
      simp only [List.head?_cons, Option.some.injEq] at hch
      subst hch
      exact Or.inr rfl)

/-- C4 counterexample: with a stream whose final chunk DOES carry a usage
block (reporting `completion_tokens = 0`, `prompt_tokens = 7`), the
fallback call is still issued; and the fallback call's parameters are not
identical to the streaming call's: the streaming call pins
`temperature = 0.0` and sends the per-user header, while the fallback
passes neither. -/
theorem c4_counterexample :
    ((async_launch_request "m" [⟨Role.user, "q"⟩] 16 (some [("x-user-id", "1")])
        [⟨[⟨some "hi"⟩], some ⟨0, 7⟩, 1⟩] (some ⟨3, 9⟩) 0 2).fallbackReq.map
          CompletionRequest.temperature = some none) ∧
    ((async_launch_request "m" [⟨Role.user, "q"⟩] 16 (some [("x-user-id", "1")])
        [⟨[⟨some "hi"⟩], some ⟨0, 7⟩, 1⟩] (some ⟨3, 9⟩) 0 2).streamReq.temperature =
          some 0) ∧
    ((async_launch_request "m" [⟨Role.user, "q"⟩] 16 (some [("x-user-id", "1")])
        [⟨[⟨some "hi"⟩], some ⟨0, 7⟩, 1⟩] (some ⟨3, 9⟩) 0 2).fallbackReq.map
          CompletionRequest.extra_headers = some none) ∧
    ((async_launch_request "m" [⟨Role.user, "q"⟩] 16 (some [("x-user-id", "1")])
        [⟨[⟨some "hi"⟩], some ⟨0, 7⟩, 1⟩] (some ⟨3, 9⟩) 0 2).streamReq.extra_headers =
          some [("x-user-id", "1")]) ∧
    (([⟨[⟨some "hi"⟩], some ⟨0, 7⟩, 1⟩] : List StreamChunk).getLast?.map
        StreamChunk.usage = some (some ⟨0, 7⟩)) := by
  decide

/-- C4 (amended): the fallback non-streaming call is issued exactly when
the token counters recovered from the stream's final chunk leave either
counter at zero (in particular, also when a usage block is present but
reports zero); the fallback reuses the same model, prompt and max_tokens
with `stream = false`, but omits `temperature`, `extra_headers` and
`stream_options`; and the fallback response is consulted solely for the
token counts — every other response field is unchanged by it. -/
theorem c4_fallback_call (model : String) (messages : List Message)
    (mt : Int) (eh : Option (List (String × String)))
    (chunks : List StreamChunk) (fu : Option Usage) (st te : ℚ)
    (hne : chunks ≠ []) :
    ((async_launch_request model messages mt eh chunks fu st te).fallbackReq.isSome = true ↔
      (streamTokens chunks).1 = 0 ∨ (streamTokens chunks).2 = 0) ∧
    (∀ req, (async_launch_request model messages mt eh chunks fu st te).fallbackReq = some req →
      req.model = (async_launch_request model messages mt eh chunks fu st te).streamReq.model ∧
      req.prompt = (async_launch_request model messages mt eh chunks fu st te).streamReq.prompt ∧
      req.max_tokens = (async_launch_request model messages mt eh chunks fu st te).streamReq.max_tokens ∧
      req.stream = false ∧
      (async_launch_request model messages mt eh chunks fu st te).streamReq.stream = true ∧
      req.temperature = none ∧ req.extra_headers = none ∧ req.include_usage = none) ∧
    (∀ r r₀, (async_launch_request model messages mt eh chunks fu st te).result = Except.ok r →
      (async_launch_request model messages mt eh chunks none st te).result = Except.ok r₀ →
      r.body = r₀.body ∧ r.ttft = r₀.ttft ∧ r.generation_time = r₀.generation_time ∧
      r.launch_time = r₀.launch_time ∧ r.finish_time = r₀.finish_time) ∧
    ((async_launch_request model messages mt eh chunks fu st te).fallbackReq = none →
      (async_launch_request model messages mt eh chunks fu st te).result =
        (async_launch_request model messages mt eh chunks none st te).result) ∧
    (∀ u, fu = some u →
      (async_launch_request model messages mt eh chunks fu st te).fallbackReq.isSome = true →
      ∃ r, (async_launch_request model messages mt eh chunks fu st te).result = Except.ok r ∧
        r.generation_tokens = u.completion_tokens ∧ r.prompt_tokens = u.prompt_tokens) := by
  have hie : chunks.isEmpty = false := by
    cases chunks with
    | nil => exact absurd rfl hne
    | cons a t => rfl
  by_cases hfb : fallbackIssued chunks = true
  · have hor : (streamTokens chunks).1 = 0 ∨ (streamTokens chunks).2 = 0 := by
      have := hfb
      unfold fallbackIssued at this
      simpa using this
    refine ⟨?_, ?_, ?_, ?_, ?_⟩
    · simp [async_launch_request, hie, hfb, hor]
    · intro req hreq
      simp only [async_launch_request, hie, Bool.false_eq_true, if_false, hfb, if_true] at hreq ⊢
      simp only [Option.some.injEq] at hreq
      subst hreq
      exact ⟨rfl, rfl, rfl, rfl, rfl, rfl, rfl, rfl⟩
    · intro r r₀ hr hr₀
      simp only [async_launch_request, hie, Bool.false_eq_true, if_false, hfb, if_true,
        Except.ok.injEq] at hr hr₀
      subst hr
      subst hr₀
      cases fu <;> exact ⟨rfl, rfl, rfl, rfl, rfl⟩
    · intro hnone
      simp [async_launch_request, hie, hfb] at hnone
    · intro u hu _
      subst hu
      simp only [async_launch_request, hie, Bool.false_eq_true, if_false, hfb, if_true]
      exact ⟨_, rfl, rfl, rfl⟩
  · have hfb₂ : fallbackIssued chunks = false := by
      cases hb : fallbackIssued chunks with
      | true => exact absurd hb hfb
      | false => rfl
    have hnor : ¬((streamTokens chunks).1 = 0 ∨ (streamTokens chunks).2 = 0) := by
      intro hor
      apply hfb
      unfold fallbackIssued
      rcases hor with h1 | h1 <;> simp [h1]
    refine ⟨?_, ?_, ?_, ?_, ?_⟩
    · simp [async_launch_request, hie, hfb₂, hnor]
    · intro req hreq
      simp [async_launch_request, hie, hfb₂] at hreq
    · intro r r₀ hr hr₀
      simp only [async_launch_request, hie, Bool.false_eq_true, if_false, hfb₂,
        Except.ok.injEq] at hr hr₀
      subst hr
      subst hr₀
      exact ⟨rfl, rfl, rfl, rfl, rfl⟩
    · intro _
      simp [async_launch_request, hie, hfb₂]
    · intro u hu habs
      rw [show (async_launch_request model messages mt eh chunks fu st te).fallbackReq = none by
        simp [async_launch_request, hie, hfb₂]] at habs
      simp at habs

/-- Witness for C4's amended theorem: a stream with no usage block. -/
theorem c4_witness :
    ((async_launch_request "m" [] 16 none [⟨[⟨some "hi"⟩], none, 1⟩] none 0
        2).fallbackReq.isSome = true ↔
      (streamTokens [⟨[⟨some "hi"⟩], none, 1⟩]).1 = 0 ∨
        (streamTokens [⟨[⟨some "hi"⟩], none, 1⟩]).2 = 0) :=
  (c4_fallback_call "m" [] 16 none [⟨[⟨some "hi"⟩], none, 1⟩] none 0 2 (by decide)).1

theorem on_user_query_some (h : ChatHistory) (q : String)
    (hwf : h = [] ∨ h.getLast?.map Message.role = some Role.assistant) :
    h.on_user_query q = some (h ++ [⟨Role.user, q⟩]) := by
  unfold ChatHistory.on_user_query
  rcases hwf with rfl | hl
  · simp
  · cases h with
    | nil => simp at hl
    | cons a tl => rw [if_neg (by simp), if_pos hl]

theorem launch_new_request_spec (s : UserSession) (t : ℚ) (rand : String)
    (hwf : s.chat_history = [] ∨
      s.chat_history.getLast?.map Message.role = some Role.assistant) :
    ∃ s₂, s.launch_new_request t rand = some s₂ ∧
      s₂.last_request_time = some t ∧
      s₂.has_unfinished_request = true ∧
      s₂.question_id = s.question_id + 1 ∧
      s₂.finished = s.finished ∧
      s₂.chat_history.length = s.chat_history.length + 1 ∧
      s₂.user_config = s.user_config ∧
      s₂.chat_history.getLast?.map Message.role = some Role.user ∧
      s₂.prompt_lengths = s.prompt_lengths ∧
      s₂.generation_lengths = s.generation_lengths ∧
      s₂.ttfts = s.ttfts ∧
      s₂.generation_times = s.generation_times ∧
      s₂.launch_times = s.launch_times ∧
      s₂.finish_times = s.finish_times := by
  unfold UserSession.launch_new_request
  simp only [UserSession.build_new_question]
  rw [on_user_query_some s.chat_history _ hwf]
  refine ⟨_, rfl, rfl, rfl, rfl, rfl, ?_, rfl, ?_, rfl, rfl, rfl, rfl, rfl, rfl⟩
  · simp
  · simp

/-- C1: `UserSession.step` at time `t` follows the spec's transition rule:
(1) at or past the round budget with nothing in flight, the session turns
FINISHED and fires nothing; (2) otherwise, with `last_request_time` unset,
a round fires immediately; (3) otherwise, once the pacing gap has elapsed:
with a request still in flight nothing fires (only the rate-limited
warning, at most once per 10 seconds, may be logged), and with nothing in
flight the next round fires and `last_request_time` becomes `t`;
(4) otherwise the step is a no-op. The
well-formedness hypothesis (empty history or assistant last turn) holds
in every reachable state and makes the fired branches total. -/
theorem c1_step_transition (s : UserSession) (t : ℚ) (rand : String)
    (hwf : s.chat_history = [] ∨
      s.chat_history.getLast?.map Message.role = some Role.assistant) :
    (s.question_id ≥ s.user_config.num_rounds ∧ s.has_unfinished_request = false →
      s.step t rand = some ⟨{ s with finished := true }, false, false⟩) ∧
    (¬(s.question_id ≥ s.user_config.num_rounds ∧ s.has_unfinished_request = false) →
      s.last_request_time = none →
      ∃ s₂, s.step t rand = some ⟨s₂, true, false⟩ ∧
        s₂.last_request_time = some t ∧ s₂.has_unfinished_request = true ∧
        s₂.question_id = s.question_id + 1 ∧ s₂.finished = s.finished) ∧
    (∀ lrt, ¬(s.question_id ≥ s.user_config.num_rounds ∧ s.has_unfinished_request = false) →
      s.last_request_time = some lrt →
      t - lrt > s.user_config.gap_between_requests →
      s.has_unfinished_request = true →
      s.step t rand = some ⟨{ s with last_unfinished_log :=
          if t - s.last_unfinished_log > 10 then t else s.last_unfinished_log },
        false, decide (t - s.last_unfinished_log > 10)⟩) ∧
    (∀ lrt, ¬(s.question_id ≥ s.user_config.num_rounds ∧ s.has_unfinished_request = false) →
      s.last_request_time = some lrt →
      t - lrt > s.user_config.gap_between_requests →
      s.has_unfinished_request = false →
      ∃ s₂, s.step t rand = some ⟨s₂, true, false⟩ ∧
        s₂.last_request_time = some t ∧ s₂.has_unfinished_request = true ∧
        s₂.question_id = s.question_id + 1 ∧ s₂.finished = s.finished) ∧
    (∀ lrt, ¬(s.question_id ≥ s.user_config.num_rounds ∧ s.has_unfinished_request = false) →
      s.last_request_time = some lrt →
      ¬(t - lrt > s.user_config.gap_between_requests) →
      s.step t rand = some ⟨s, false, false⟩) := by
  refine ⟨?_, ?_, ?_, ?_, ?_⟩
  · intro hdone
    unfold UserSession.step
    rw [if_pos hdone]
  · intro hnd hnone
    unfold UserSession.step
    rw [if_neg hnd, hnone]
    obtain ⟨s₂, hl, h1, h2, h3, h4, _⟩ := launch_new_request_spec s t rand hwf
    rw [hl]
    exact ⟨s₂, rfl, h1, h2, h3, h4⟩
  · intro lrt hnd hsome hgap hflag
    unfold UserSession.step
    rw [if_neg hnd, hsome]
    simp only [if_pos hgap, hflag, if_true]
    by_cases hw : t - s.last_unfinished_log > 10
    · rw [if_pos hw, if_pos hw, decide_eq_true hw]
    · rw [if_neg hw, if_neg hw, decide_eq_false hw]
      rw [← hsome, ← hflag]
  · intro lrt hnd hsome hgap hflag
    unfold UserSession.step
    rw [if_neg hnd, hsome]
    simp only [if_pos hgap, hflag, Bool.false_eq_true, if_false]
    obtain ⟨s₂, hl, h1, h2, h3, h4, _⟩ := launch_new_request_spec s t rand hwf
    rw [hl]
    exact ⟨s₂, rfl, h1, h2, h3, h4⟩
  · intro lrt hnd hsome hgap
    unfold UserSession.step
    rw [if_neg hnd, hsome]
    simp only [if_neg hgap]

/-- Witness for C1 at a fresh session whose round budget is zero: the
first tick finishes it without firing. -/
theorem c1_witness :
    (UserSession.init demoUC0 none).step 0 "" =
      some ⟨{ UserSession.init demoUC0 none with finished := true }, false, false⟩ :=
  (c1_step_transition (UserSession.init demoUC0 none) 0 "" (Or.inl rfl)).1 (by decide)

theorem on_user_query_shape (h h₂ : ChatHistory) (q : String)
    (hq : h.on_user_query q = some h₂) : h₂ = h ++ [⟨Role.user, q⟩] := by
  unfold ChatHistory.on_user_query at hq
  split at hq
  · exact (Option.some_inj.mp hq).symm
  · split at hq
    · exact (Option.some_inj.mp hq).symm
    · exact Option.noConfusion hq

theorem launch_new_request_effects (s s₂ : UserSession) (t : ℚ) (rand : String)
    (h : s.launch_new_request t rand = some s₂) :
    s₂.has_unfinished_request = true ∧
    s₂.last_request_time = some t ∧
    s₂.question_id = s.question_id + 1 ∧
    s₂.finished = s.finished ∧
    s₂.chat_history.getLast?.map Message.role = some Role.user ∧
    s₂.prompt_lengths = s.prompt_lengths ∧
    s₂.generation_lengths = s.generation_lengths ∧
    s₂.ttfts = s.ttfts ∧
    s₂.generation_times = s.generation_times ∧
    s₂.launch_times = s.launch_times ∧
    s₂.finish_times = s.finish_times := by
  unfold UserSession.launch_new_request at h
  simp only [UserSession.build_new_question] at h
  split at h
  · exact Option.noConfusion h
  · rename_i hist₂ heq
    obtain rfl := Option.some_inj.mp h
    refine ⟨rfl, rfl, rfl, rfl, ?_, rfl, rfl, rfl, rfl, rfl, rfl⟩
    rw [on_user_query_shape _ _ _ heq]
    simp

theorem step_fired_effects (s : UserSession) (t : ℚ) (rand : String)
    (res : StepResult) (h : s.step t rand = some res) (hf : res.fired = true) :
    (s.last_request_time = none ∨ s.has_unfinished_request = false) ∧
    res.session.has_unfinished_request = true ∧
    res.session.last_request_time = some t ∧
    res.session.question_id = s.question_id + 1 := by
  unfold UserSession.step at h
  split at h
  · obtain rfl := Option.some_inj.mp h
    exact absurd hf (by simp)
  · split at h
    · rename_i hnone
      obtain ⟨s₂, hl, rfl⟩ := Option.map_eq_some'.mp h
      obtain ⟨e1, e2, e3, _⟩ := launch_new_request_effects s s₂ t rand hl
      exact ⟨Or.inl hnone, e1, e2, e3⟩
    · rename_i lrt hsome
      split at h
      · split at h
        · split at h
          · obtain rfl := Option.some_inj.mp h
            exact absurd hf (by simp)
          · obtain rfl := Option.some_inj.mp h
            exact absurd hf (by simp)
        · rename_i hflag
          obtain ⟨s₂, hl, rfl⟩ := Option.map_eq_some'.mp h
          obtain ⟨e1, e2, e3, _⟩ := launch_new_request_effects s s₂ t rand hl
          refine ⟨Or.inr ?_, e1, e2, e3⟩
          cases hb : s.has_unfinished_request with
          | true => exact absurd hb hflag
          | false => rfl
      · obtain rfl := Option.some_inj.mp h
        exact absurd hf (by simp)

theorem step_not_fired_effects (s : UserSession) (t : ℚ) (rand : String)
    (res : StepResult) (h : s.step t rand = some res) (hf : res.fired = false) :
    res.session.has_unfinished_request = s.has_unfinished_request ∧
    res.session.last_request_time = s.last_request_time ∧
    res.session.chat_history = s.chat_history ∧
    res.session.question_id = s.question_id ∧
    res.session.prompt_lengths = s.prompt_lengths ∧
    res.session.generation_lengths = s.generation_lengths ∧
    res.session.ttfts = s.ttfts ∧
    res.session.generation_times = s.generation_times ∧
    res.session.launch_times = s.launch_times ∧
    res.session.finish_times = s.finish_times := by
  unfold UserSession.step at h
  split at h
  · obtain rfl := Option.some_inj.mp h
    exact ⟨rfl, rfl, rfl, rfl, rfl, rfl, rfl, rfl, rfl, rfl⟩
  · split at h
    · obtain ⟨s₂, _, rfl⟩ := Option.map_eq_some'.mp h
      exact absurd hf (by simp)
    · split at h
      · split at h
        · split at h
          · obtain rfl := Option.some_inj.mp h
            exact ⟨rfl, rfl, rfl, rfl, rfl, rfl, rfl, rfl, rfl, rfl⟩
          · obtain rfl := Option.some_inj.mp h
            exact ⟨rfl, rfl, rfl, rfl, rfl, rfl, rfl, rfl, rfl, rfl⟩
        · obtain ⟨s₂, _, rfl⟩ := Option.map_eq_some'.mp h
          exact absurd hf (by simp)
      · obtain rfl := Option.some_inj.mp h
        exact ⟨rfl, rfl, rfl, rfl, rfl, rfl, rfl, rfl, rfl, rfl⟩

theorem step_stuck (s : UserSession) (t : ℚ) (rand : String) (res : StepResult)
    (hflag : s.has_unfinished_request = true)
    (hlrt : s.last_request_time ≠ none)
    (h : s.step t rand = some res) :
    res.fired = false ∧
    ∃ l, res.session = { s with last_unfinished_log := l } := by
  have hnd : ¬(s.question_id ≥ s.user_config.num_rounds ∧
      s.has_unfinished_request = false) := by
    intro hc
    rw [hflag] at hc
    exact Bool.noConfusion hc.2
  unfold UserSession.step at h
  rw [if_neg hnd] at h
  cases hl : s.last_request_time with
  | none => exact absurd hl hlrt
  | some lrt =>
    rw [hl] at h
    simp only [hflag, if_true] at h
    split at h
    · split at h
      · obtain rfl := Option.some_inj.mp h
        refine ⟨rfl, t, ?_⟩
        rw [hflag]
      · obtain rfl := Option.some_inj.mp h
        refine ⟨rfl, s.last_unfinished_log, ?_⟩
        rw [← hl]
    · obtain rfl := Option.some_inj.mp h
      refine ⟨rfl, s.last_unfinished_log, ?_⟩
      rw [← hl]

theorem on_request_finished_effects (s s₂ : UserSession) (r : Response)
    (h : s.on_request_finished r = some s₂) :
    s₂.has_unfinished_request = false ∧
    s₂.last_request_time = s.last_request_time := by
  unfold UserSession.on_request_finished at h
  split at h
  · exact Option.noConfusion h
  · obtain rfl := Option.some_inj.mp h
    exact ⟨rfl, rfl⟩

theorem sysInv_init (uc : UserConfig) (app : Option App) :
    SysInv (SysState.init uc app) := by
  refine ⟨by simp [SysState.init], ?_, ?_⟩
  · intro hc
    simp [SysState.init] at hc
  · intro _
    exact ⟨rfl, rfl⟩

theorem sysInv_applyEvent (st st₂ : SysState) (e : Event)
    (hinv : SysInv st) (h : applyEvent st e = some st₂) : SysInv st₂ := by
  obtain ⟨hle, hone, hnone⟩ := hinv
  cases e with
  | tick t rand =>
    simp only [applyEvent] at h
    obtain ⟨res, hstep, rfl⟩ := Option.map_eq_some'.mp h
    cases hf : res.fired with
    | true =>
      obtain ⟨hor, e1, e2, _⟩ := step_fired_effects st.session t rand res hstep hf
      have hzero : st.inflight = 0 := by
        rcases hor with hn | hfl
        · exact (hnone hn).2
        · rcases Nat.lt_or_ge st.inflight 1 with h1 | h1
          · omega
          · have : st.inflight = 1 := by omega
            rw [hone this] at hfl
            exact Bool.noConfusion hfl
      refine ⟨?_, ?_, ?_⟩
      · simp [hf, hzero]
      · intro _
        exact e1
      · intro hn
        rw [e2] at hn
        exact Option.noConfusion hn
    | false =>
      obtain ⟨e1, e2, _⟩ := step_not_fired_effects st.session t rand res hstep hf
      refine ⟨?_, ?_, ?_⟩
      · simp [hf, hle]
      · intro hi
        simp only [hf] at hi
        simp only [Bool.false_eq_true, if_false] at hi
        rw [e1]
        exact hone hi
      · intro hn
        rw [e2] at hn
        obtain ⟨f1, f2⟩ := hnone hn
        refine ⟨by rw [e1]; exact f1, ?_⟩
        simp [hf, f2]
  | finishOk r =>
    simp only [applyEvent] at h
    split at h
    · exact Option.noConfusion h
    · rename_i hnz
      obtain ⟨s₂, hfin, rfl⟩ := Option.map_eq_some'.mp h
      obtain ⟨f1, _⟩ := on_request_finished_effects st.session s₂ r hfin
      refine ⟨?_, ?_, ?_⟩
      · show st.inflight - 1 ≤ 1
        omega
      · intro hi
        have hi2 : st.inflight - 1 = 1 := hi
        exact absurd hi2 (by omega)
      · intro _
        refine ⟨f1, ?_⟩
        show st.inflight - 1 = 0
        omega
  | finishErr =>
    simp only [applyEvent] at h
    split at h
    · exact Option.noConfusion h
    · rename_i hnz
      obtain rfl := Option.some_inj.mp h
      refine ⟨?_, ?_, ?_⟩
      · show st.inflight - 1 ≤ 1
        omega
      · intro hi
        have hi2 : st.inflight - 1 = 1 := hi
        exact absurd hi2 (by omega)
      · intro hn
        exact absurd (hnone hn).2 hnz

theorem sysInv_runEvents (events : List Event) :
    ∀ (st st₂ : SysState), SysInv st → runEvents st events = some st₂ →
      SysInv st₂ := by
  induction events with
  | nil =>
    intro st st₂ hinv h
    obtain rfl := Option.some_inj.mp h
    exact hinv
  | cons e es ih =>
    intro st st₂ hinv h
    unfold runEvents at h
    split at h
    · exact Option.noConfusion h
    · rename_i mid hmid
      exact ih mid st₂ (sysInv_applyEvent st mid e hinv hmid) h

/-- C2: per-session exclusivity. For every session and every interleaving
of scheduler ticks and executor completions, at most one request is ever
outstanding, and a launch (an increase of the outstanding-call count)
happens only when `has_unfinished_request` is down. -/
theorem c2_single_inflight :
    (∀ (uc : UserConfig) (app : Option App) (events : List Event) (st : SysState),
        runEvents (SysState.init uc app) events = some st →
        st.inflight ≤ 1) ∧
    (∀ (uc : UserConfig) (app : Option App) (events : List Event)
        (st : SysState) (e : Event) (st₂ : SysState),
        runEvents (SysState.init uc app) events = some st →
        applyEvent st e = some st₂ →
        st.inflight < st₂.inflight →
        st.session.has_unfinished_request = false) := by
  constructor
  · intro uc app events st h
    exact (sysInv_runEvents events (SysState.init uc app) st (sysInv_init uc app) h).1
  · intro uc app events st e st₂ h happ hlt
    have hinv := sysInv_runEvents events (SysState.init uc app) st (sysInv_init uc app) h
    obtain ⟨hle, hone, hnone⟩ := hinv
    cases e with
    | tick t rand =>
      simp only [applyEvent] at happ
      obtain ⟨res, hstep, rfl⟩ := Option.map_eq_some'.mp happ
      cases hf : res.fired with
      | true =>
        obtain ⟨hor, _, _, _⟩ := step_fired_effects st.session t rand res hstep hf
        rcases hor with hn | hfl
        · exact (hnone hn).1
        · exact hfl
      | false =>
        simp only [hf, Bool.false_eq_true, if_false] at hlt
        omega
    | finishOk r =>
      simp only [applyEvent] at happ
      split at happ
      · exact Option.noConfusion happ
      · obtain ⟨s₂, _, rfl⟩ := Option.map_eq_some'.mp happ
        simp only at hlt
        omega
    | finishErr =>
      simp only [applyEvent] at happ
      split at happ
      · exact Option.noConfusion happ
      · obtain rfl := Option.some_inj.mp happ
        simp only at hlt
        omega

/-- Witness for C2 at a concrete fresh session. -/
theorem c2_witness : (SysState.init demoUC none).inflight ≤ 1 :=
  c2_single_inflight.1 demoUC none [] (SysState.init demoUC none) rfl

theorem stuck_runEvents (events : List Event) :
    ∀ (st st₂ : SysState),
      st.session.has_unfinished_request = true →
      st.inflight = 0 →
      st.session.last_request_time ≠ none →
      runEvents st events = some st₂ →
      (∃ l, st₂.session = { st.session with last_unfinished_log := l }) ∧
        st₂.inflight = 0 := by
  induction events with
  | nil =>
    intro st st₂ hflag hzero hlrt h
    obtain rfl := Option.some_inj.mp h
    exact ⟨⟨st.session.last_unfinished_log, rfl⟩, hzero⟩
  | cons e es ih =>
    intro st st₂ hflag hzero hlrt h
    unfold runEvents at h
    split at h
    · exact Option.noConfusion h
    · rename_i mid hmid
      cases e with
      | tick t rand =>
        simp only [applyEvent] at hmid
        obtain ⟨res, hstep, rfl⟩ := Option.map_eq_some'.mp hmid
        obtain ⟨hf, l, hsess⟩ := step_stuck st.session t rand res hflag hlrt hstep
        have hmflag : res.session.has_unfinished_request = true := by
          rw [hsess]
          exact hflag
        have hmlrt : res.session.last_request_time ≠ none := by
          rw [hsess]
          exact hlrt
        have hmzero : (if res.fired then st.inflight + 1 else st.inflight) = 0 := by
          simp [hf, hzero]
        obtain ⟨⟨l₂, hsess₂⟩, hz₂⟩ := ih ⟨res.session, _⟩ st₂ hmflag hmzero hmlrt h
        refine ⟨⟨l₂, ?_⟩, hz₂⟩
        simp only at hsess₂
        rw [hsess₂, hsess]
      | finishOk r =>
        simp only [applyEvent] at hmid
        rw [if_pos hzero] at hmid
        exact Option.noConfusion hmid
      | finishErr =>
        simp only [applyEvent] at hmid
        rw [if_pos hzero] at hmid
        exact Option.noConfusion hmid

/-- C6: a transport/protocol error loses the round. The error event
consumes the outstanding call but leaves the session untouched: no
completion callback runs, no assistant turn and no metrics row is
appended, and `has_unfinished_request` stays set. From that state, no
sequence of further events ever changes the conversation, the question
counter, or any metrics column: the session never fires again (only the
warning timestamp may advance). -/
theorem c6_error_round_lost :
    (∀ (st : SysState), st.inflight ≠ 0 →
        applyEvent st Event.finishErr = some ⟨st.session, st.inflight - 1⟩) ∧
    (∀ (st : SysState) (events : List Event) (st₂ : SysState),
        st.session.has_unfinished_request = true →
        st.inflight = 0 →
        st.session.last_request_time ≠ none →
        runEvents st events = some st₂ →
        st₂.session.has_unfinished_request = true ∧
        st₂.inflight = 0 ∧
        st₂.session.chat_history = st.session.chat_history ∧
        st₂.session.question_id = st.session.question_id ∧
        st₂.session.prompt_lengths = st.session.prompt_lengths ∧
        st₂.session.generation_lengths = st.session.generation_lengths ∧
        st₂.session.ttfts = st.session.ttfts ∧
        st₂.session.generation_times = st.session.generation_times ∧
        st₂.session.launch_times = st.session.launch_times ∧
        st₂.session.finish_times = st.session.finish_times ∧
        st₂.session.last_request_time = st.session.last_request_time) := by
  constructor
  · intro st hnz
    simp only [applyEvent]
    rw [if_neg hnz]
  · intro st events st₂ hflag hzero hlrt h
    obtain ⟨⟨l, hsess⟩, hz⟩ := stuck_runEvents events st st₂ hflag hzero hlrt h
    rw [hsess]
    exact ⟨hflag, hz, rfl, rfl, rfl, rfl, rfl, rfl, rfl, rfl, rfl⟩

/-- Witness for C6 at a concrete stuck session. -/
theorem c6_witness :
    (⟨{ UserSession.init demoUC none with
          has_unfinished_request := true, last_request_time := some 1 }, 0⟩ :
        SysState).session.has_unfinished_request = true ∧
    (⟨{ UserSession.init demoUC none with
          has_unfinished_request := true, last_request_time := some 1 }, 0⟩ :
        SysState).inflight = 0 :=
  ⟨(c6_error_round_lost.2
      ⟨{ UserSession.init demoUC none with
          has_unfinished_request := true, last_request_time := some 1 }, 0⟩
      []
      ⟨{ UserSession.init demoUC none with
          has_unfinished_request := true, last_request_time := some 1 }, 0⟩
      rfl rfl (by simp) rfl).1,
   (c6_error_round_lost.2
      ⟨{ UserSession.init demoUC none with
          has_unfinished_request := true, last_request_time := some 1 }, 0⟩
      []
      ⟨{ UserSession.init demoUC none with
          has_unfinished_request := true, last_request_time := some 1 }, 0⟩
      rfl rfl (by simp) rfl).2.1⟩

theorem create_user_session_spec (m : ManagerState) (s : UserSession)
    (m₂ : ManagerState) (h : m.create_user_session = some (s, m₂)) :
    (∃ app, s = UserSession.init
        (UserConfig.new_user_config (m.user_id + 1) m.workload) (some app)) ∧
    m₂.sessions = m.sessions ++ [s] ∧
    m₂.user_id = m.user_id + 1 ∧
    m₂.gap_between_users = m.gap_between_users ∧
    m₂.ramp_up_time = m.ramp_up_time ∧
    m₂.workload = m.workload ∧
    m₂.last_user_join = m.last_user_join ∧
    m₂.need_ramp_up = m.need_ramp_up ∧
    m₂.start_time = m.start_time ∧
    m₂.session_summaries = m.session_summaries := by
  simp only [ManagerState.create_user_session] at h
  split at h
  · exact Option.noConfusion h
  · rename_i app am₂ hget
    have h₂ := Option.some_inj.mp h
    obtain ⟨rfl, rfl⟩ := Prod.mk.inj h₂
    exact ⟨⟨app, rfl⟩, rfl, rfl, rfl, rfl, rfl, rfl, rfl, rfl, rfl⟩

theorem set_internal_state_init (uc : UserConfig) (app : Option App)
    (offset t : ℚ) :
    ∃ s₂, (UserSession.init uc app).set_internal_state offset t = some s₂ :=
  ⟨_, rfl⟩

theorem rampUpFrom_spec :
    ∀ (rem i : Nat) (t rut g : ℚ) (m m₂ : ManagerState),
      m.gap_between_users = g →
      rampUpFrom t rut i rem m = some m₂ →
      (∀ j : Nat, j < rem → 0 ≤ rut - (((i + j : Nat) : ℚ) * g)) →
      m₂.sessions.length = m.sessions.length + rem ∧
      (∀ k, k < m.sessions.length → m₂.sessions[k]? = m.sessions[k]?) ∧
      (∀ k, k < rem →
        ∃ (app : App) (s₂ : UserSession),
          (UserSession.init
              (UserConfig.new_user_config (m.user_id + (k : Int) + 1) m.workload)
              (some app)).set_internal_state
            (rut - (((i + k : Nat) : ℚ) * g)) t = some s₂ ∧
          m₂.sessions[m.sessions.length + k]? = some s₂) := by
  intro rem
  induction rem with
  | zero =>
    intro i t rut g m m₂ hg h hoff
    unfold rampUpFrom at h
    obtain rfl := Option.some_inj.mp h
    exact ⟨rfl, fun k _ => rfl, fun k hk => absurd hk (Nat.not_lt_zero k)⟩
  | succ r ih =>
    intro i t rut g m m₂ hg h hoff
    unfold rampUpFrom at h
    split at h
    · exact Option.noConfusion h
    · rename_i sm hcr
      obtain ⟨⟨app, happ⟩, e_sess, e_uid, e_gap, _, e_wl, _, _, _, _⟩ :=
        create_user_session_spec m sm.1 sm.2 (by rw [hcr])
      have hoff0 : 0 ≤ rut - (((i : ℚ)) * g) := by
        have := hoff 0 (Nat.succ_pos r)
        simpa using this
      rw [if_neg (by rw [e_gap, hg]; exact not_lt.mpr hoff0)] at h
      rw [happ] at h
      obtain ⟨s₂, hset⟩ :=
        set_internal_state_init
          (UserConfig.new_user_config (m.user_id + 1) m.workload) (some app)
          (rut - (i : ℚ) * sm.2.gap_between_users) t
      rw [hset] at h
      set m₃ : ManagerState :=
        { sm.2 with
          last_user_join := t
          sessions := ({ sm.2 with last_user_join := t }).sessions.dropLast ++ [s₂] }
        with hm₃
      have hm₃sess : m₃.sessions = m.sessions ++ [s₂] := by
        simp only [hm₃, e_sess]
        rw [List.dropLast_concat]
      have hm₃gap : m₃.gap_between_users = g := by
        simp only [hm₃]
        rw [e_gap, hg]
      have hm₃uid : m₃.user_id = m.user_id + 1 := e_uid
      have hm₃wl : m₃.workload = m.workload := e_wl
      obtain ⟨ih1, ih2, ih3⟩ := ih (i + 1) t rut g m₃ m₂ hm₃gap h
        (fun j hj => by
          have := hoff (j + 1) (by omega)
          have harith : ((i + 1 + j : Nat) : ℚ) = ((i + (j + 1) : Nat) : ℚ) := by
            congr 1
            omega
          rw [harith]
          exact this)
      have hlen₃ : m₃.sessions.length = m.sessions.length + 1 := by
        rw [hm₃sess]
        simp
      refine ⟨?_, ?_, ?_⟩
      · rw [ih1, hlen₃]
        omega
      · intro k hk
        have hk₃ : k < m₃.sessions.length := by omega
        rw [ih2 k hk₃, hm₃sess]
        exact List.getElem?_append_left (by omega)
      · intro k hk
        cases k with
        | zero =>
          refine ⟨app, s₂, ?_, ?_⟩
          · have harith : (((i + 0 : Nat)) : ℚ) * g = (i : ℚ) * sm.2.gap_between_users := by
              rw [e_gap, hg]
              norm_num
            rw [harith]
            simpa using hset
          · have hidx : m.sessions.length + 0 < m₃.sessions.length := by omega
            rw [ih2 (m.sessions.length + 0) hidx, hm₃sess]
            simp [List.getElem?_concat_length]
        | succ k₂ =>
          have hk₂ : k₂ < r := by omega
          obtain ⟨app₂, s₃, hset₂, hidx₂⟩ := ih3 k₂ hk₂
          refine ⟨app₂, s₃, ?_, ?_⟩
          · rw [hm₃uid, hm₃wl] at hset₂
            have harith : ((i + 1 + k₂ : Nat) : ℚ) = ((i + (k₂ + 1) : Nat) : ℚ) := by
              congr 1
              omega
            rw [harith] at hset₂
            have huid : m.user_id + 1 + (k₂ : Int) + 1 = m.user_id + ((k₂ + 1 : Nat) : Int) + 1 := by
              push_cast
              ring
            rw [huid] at hset₂
            exact hset₂
          · rw [hlen₃] at hidx₂
            have : m.sessions.length + 1 + k₂ = m.sessions.length + (k₂ + 1) := by omega
            rw [this] at hidx₂
            exact hidx₂

theorem demo_mk_eval :
    ManagerState.mk' demoWorkload demoRows 0 = Except.ok demoManager3 := by
  norm_num [ManagerState.mk', AppsManager.mk', load_apps, demoWorkload, demoRows,
    demoManager3, demoApp]

theorem demo_ramp_eval : demoManager3.ramp_up 0 = some demoManager3Ramped := by
  unfold ManagerState.ramp_up
  norm_num [rampUpFrom, ManagerState.create_user_session,
    AppsManager.get_app_for_user, AppsManager.assign_app_to_user,
    UserConfig.new_user_config, UserSession.init, UserSession.set_internal_state,
    truncQ, demoManager3, demoWorkload, demoApp, demoManager3Ramped,
    demoRampSession, Int.emod_one, List.lookup,
    show ((2 : Int) == 1) = false by decide]

/-- C3 counterexample: with 2 users and `gap_between_users = 1`
(`ramp_up_time = 2`), the ramp-up back-dates the first created session by
offset `2` (fast-forwarding `question_id` to 3) and the second by offset
`1` (`question_id = 2`): the offsets applied are `{2, 1}`, not the claimed
`{0 * g, 1 * g} = {0, 1}` — back-dating by offset `0` would have left
`question_id = 1`. -/
theorem c3_counterexample :
    ManagerState.mk' demoWorkload demoRows 0 = Except.ok demoManager3 ∧
    demoManager3.ramp_up 0 = some demoManager3Ramped ∧
    demoManager3Ramped.sessions.map (fun s => (s.question_id, s.last_request_time))
      = [(3, some 0), (2, some 0)] ∧
    rampOffset demoManager3 0 = 2 ∧
    (0 : ℚ) * demoManager3.gap_between_users = 0 ∧
    ((2 : ℚ) ≠ 0) ∧
    ((UserSession.init (UserConfig.new_user_config 1 demoWorkload)
        (some demoApp)).set_internal_state 0 0).map UserSession.question_id
      = some 1 := by
  refine ⟨demo_mk_eval, demo_ramp_eval, by decide, ?_, ?_, by norm_num, ?_⟩
  · norm_num [rampOffset, demoManager3]
  · norm_num [demoManager3]
  · norm_num [UserSession.set_internal_state, UserSession.init,
      UserConfig.new_user_config, truncQ, demoWorkload]

/-- C3 (amended): on the first tick, ramp-up creates `num_users` sessions
and back-dates the `k`-th created session (k = 0, ..., num_users - 1) by
the offset `ramp_up_time - k * gap_between_users`, which equals
`(num_users - k) * gap_between_users`; the set of offsets applied is
`{g, 2g, ..., num_users * g}`, not `{0, g, ..., (num_users - 1) * g}`. -/
theorem c3_ramp_backdating (w : WorkloadConfig) (rows : List AppRow)
    (init_uid : Int) (m m₂ : ManagerState) (t : ℚ)
    (hmk : ManagerState.mk' w rows init_uid = Except.ok m)
    (hg : 0 ≤ m.gap_between_users)
    (hr : m.ramp_up t = some m₂) :
    m₂.sessions.length = w.num_users ∧
    (∀ k : Nat, k < w.num_users →
      rampOffset m k = ((w.num_users : ℚ) - (k : ℚ)) * m.gap_between_users) ∧
    (∀ k : Nat, k < w.num_users →
      ∃ (app : App) (s₂ : UserSession),
        (UserSession.init (UserConfig.new_user_config (init_uid + (k : Int) + 1) w)
            (some app)).set_internal_state (rampOffset m k) t = some s₂ ∧
        m₂.sessions[k]? = some s₂) := by
  have hm : m.sessions = [] ∧ m.user_id = init_uid ∧ m.workload = w ∧
      m.ramp_up_time = (w.num_users : ℚ) * m.gap_between_users := by
    unfold ManagerState.mk' at hmk
    split at hmk
    · exact Except.noConfusion hmk
    · have := Except.ok.inj hmk
      subst this
      exact ⟨rfl, rfl, rfl, by ring⟩
  obtain ⟨hms, hmu, hmw, hmr⟩ := hm
  unfold ManagerState.ramp_up at hr
  obtain ⟨sp1, _, sp3⟩ := rampUpFrom_spec w.num_users 0 t m.ramp_up_time
    m.gap_between_users m m₂ rfl (by rw [hmw] at hr; exact hr)
    (fun j hj => by
      rw [hmr]
      have hj2 : (j : ℚ) ≤ (w.num_users : ℚ) := by
        exact_mod_cast Nat.le_of_lt hj
      have : (w.num_users : ℚ) * m.gap_between_users - ((0 + j : Nat) : ℚ) * m.gap_between_users
          = ((w.num_users : ℚ) - ((0 + j : Nat) : ℚ)) * m.gap_between_users := by
        ring
      rw [this]
      refine mul_nonneg ?_ hg
      simpa using sub_nonneg.mpr hj2)
  refine ⟨?_, ?_, ?_⟩
  · rw [sp1, hms]
    simp
  · intro k hk
    unfold rampOffset
    rw [hmr]
    ring
  · intro k hk
    obtain ⟨app, s₂, hset, hidx⟩ := sp3 k hk
    refine ⟨app, s₂, ?_, ?_⟩
    · rw [hmu, hmw] at hset
      unfold rampOffset
      have : rampOffset m k = m.ramp_up_time - ((0 + k : Nat) : ℚ) * m.gap_between_users := by
        unfold rampOffset
        norm_num
      rw [show m.ramp_up_time - (k : ℚ) * m.gap_between_users
            = m.ramp_up_time - ((0 + k : Nat) : ℚ) * m.gap_between_users by norm_num]
      exact hset
    · rw [hms] at hidx
      simpa using hidx

/-- Witness for C3's amended theorem on the demo workload. -/
theorem c3_witness :
    demoManager3Ramped.sessions.length = demoWorkload.num_users :=
  (c3_ramp_backdating demoWorkload demoRows 0 demoManager3 demoManager3Ramped 0
      demo_mk_eval (by norm_num [demoManager3]) demo_ramp_eval).1

theorem rampUpFrom_facts :
    ∀ (rem i : Nat) (t rut : ℚ) (m m₂ : ManagerState),
      rampUpFrom t rut i rem m = some m₂ →
      m₂.need_ramp_up = false ∧
      m₂.user_id ≤ m.user_id + (rem : Int) ∧
      m.user_id ≤ m₂.user_id ∧
      (0 < rem → m₂.last_user_join = t) ∧
      (rem = 0 → m₂.last_user_join = m.last_user_join ∧ m₂.user_id = m.user_id) ∧
      m₂.gap_between_users = m.gap_between_users ∧
      m₂.workload = m.workload := by
  intro rem
  induction rem with
  | zero =>
    intro i t rut m m₂ h
    unfold rampUpFrom at h
    obtain rfl := Option.some_inj.mp h
    exact ⟨rfl, by simp, le_refl _, fun hc => absurd hc (by omega),
      fun _ => ⟨rfl, rfl⟩, rfl, rfl⟩
  | succ r ih =>
    intro i t rut m m₂ h
    unfold rampUpFrom at h
    split at h
    · exact Option.noConfusion h
    · rename_i sm hcr
      obtain ⟨_, _, e_uid, e_gap, _, e_wl, _, _, _, _⟩ :=
        create_user_session_spec m sm.1 sm.2 (by rw [hcr])
      simp only [] at h
      split at h
      · obtain rfl := Option.some_inj.mp h
        refine ⟨rfl, ?_, ?_, fun _ => rfl, fun hc => absurd hc (by omega), ?_, ?_⟩
        · show sm.2.user_id ≤ m.user_id + ((r + 1 : Nat) : Int)
          rw [e_uid]
          push_cast
          omega
        · show m.user_id ≤ sm.2.user_id
          omega
        · exact e_gap
        · exact e_wl
      · split at h
        · exact Option.noConfusion h
        · rename_i s₂ hset
          obtain ⟨i1, i2, i3, i4, i5, i6, i7⟩ := ih (i + 1) t rut _ m₂ h
          have huid : ({ { sm.2 with last_user_join := t } with
              sessions := ({ sm.2 with last_user_join := t }).sessions.dropLast ++ [s₂]
                } : ManagerState).user_id = m.user_id + 1 := e_uid
          have hluj : ({ { sm.2 with last_user_join := t } with
              sessions := ({ sm.2 with last_user_join := t }).sessions.dropLast ++ [s₂]
                } : ManagerState).last_user_join = t := rfl
          refine ⟨i1, ?_, ?_, fun _ => ?_, fun hc => absurd hc (by omega), ?_, ?_⟩
          · rw [huid] at i2
            push_cast at i2 ⊢
            omega
          · rw [huid] at i3
            omega
          · rcases Nat.eq_zero_or_pos r with rfl | hr
            · rw [(i5 rfl).1, hluj]
            · exact i4 hr
          · rw [i6, e_gap]
          · rw [i7, e_wl]

theorem record_start_time_fields (m : ManagerState) (t : ℚ) :
    (m.record_start_time t).user_id = m.user_id ∧
    (m.record_start_time t).last_user_join = m.last_user_join ∧
    (m.record_start_time t).gap_between_users = m.gap_between_users ∧
    (m.record_start_time t).workload = m.workload ∧
    (m.record_start_time t).need_ramp_up = m.need_ramp_up ∧
    (m.record_start_time t).sessions = m.sessions := by
  unfold ManagerState.record_start_time
  split
  · exact ⟨rfl, rfl, rfl, rfl, rfl, rfl⟩
  · exact ⟨rfl, rfl, rfl, rfl, rfl, rfl⟩

theorem admit_new_user_spec (m m₂ : ManagerState) (t : ℚ)
    (h : m.admit_new_user t = some m₂) :
    m₂.gap_between_users = m.gap_between_users ∧
    m₂.workload = m.workload ∧
    m₂.need_ramp_up = m.need_ramp_up ∧
    ((m₂.user_id = m.user_id ∧ m₂.last_user_join = m.last_user_join) ∨
     (m₂.user_id = m.user_id + 1 ∧ m₂.last_user_join = t ∧
       (m.workload.num_users : Int) > (m.sessions.length : Int) ∧
       t - m.last_user_join > m.gap_between_users)) := by
  unfold ManagerState.admit_new_user at h
  split at h
  · rename_i hguard
    cases hcr : m.create_user_session with
    | none =>
      rw [hcr] at h
      exact Option.noConfusion h
    | some sm =>
      rw [hcr] at h
      simp only [Option.map_some'] at h
      obtain ⟨_, _, e_uid, e_gap, _, e_wl, _, e_nr, _, _⟩ :=
        create_user_session_spec m sm.1 sm.2 (by rw [hcr])
      obtain rfl := Option.some_inj.mp h
      exact ⟨e_gap, e_wl, e_nr, Or.inr ⟨e_uid, rfl, hguard.1, hguard.2⟩⟩
  · obtain rfl := Option.some_inj.mp h
    exact ⟨rfl, rfl, rfl, Or.inl ⟨rfl, rfl⟩⟩

theorem manager_step_effects (m : ManagerState) (t : ℚ) (rand : Int → String)
    (m₂ : ManagerState) (h : m.step t rand = some m₂) :
    m₂.gap_between_users = m.gap_between_users ∧
    m₂.workload = m.workload ∧
    m₂.need_ramp_up = false ∧
    (m.need_ramp_up = false →
      (m₂.user_id = m.user_id ∧ m₂.last_user_join = m.last_user_join) ∨
      (m₂.user_id = m.user_id + 1 ∧ m₂.last_user_join = t ∧
        (m.workload.num_users : Int) > (m.sessions.length : Int) ∧
        t - m.last_user_join > m.gap_between_users)) ∧
    (m.need_ramp_up = true → 0 < m.gap_between_users →
      m₂.user_id ≤ m.user_id + (m.workload.num_users : Int) ∧
      m.user_id ≤ m₂.user_id ∧
      (0 < m.workload.num_users → m₂.last_user_join = t) ∧
      (m.workload.num_users = 0 →
        m₂.last_user_join = m.last_user_join ∧ m₂.user_id = m.user_id)) := by
  unfold ManagerState.step at h
  cases hnr : m.need_ramp_up with
  | false =>
    rw [hnr] at h
    simp only [Bool.false_eq_true, if_false] at h
    split at h
    · exact Option.noConfusion h
    · rename_i m₃ hadm
      split at h
      · exact Option.noConfusion h
      · rename_i ss hsa
        obtain rfl := Option.some_inj.mp h
        obtain ⟨r1, r2, r3, r4, r5, r6⟩ := record_start_time_fields m t
        obtain ⟨a1, a2, a3, a4⟩ := admit_new_user_spec (m.record_start_time t) m₃ t hadm
        refine ⟨?_, ?_, ?_, ?_, ?_⟩
        · show m₃.gap_between_users = m.gap_between_users
          rw [a1, r3]
        · show m₃.workload = m.workload
          rw [a2, r4]
        · show m₃.need_ramp_up = false
          rw [a3, r5, hnr]
        · intro _
          rcases a4 with ⟨u1, u2⟩ | ⟨u1, u2, u3, u4⟩
          · exact Or.inl ⟨by show m₃.user_id = m.user_id; rw [u1, r1],
              by show m₃.last_user_join = m.last_user_join; rw [u2, r2]⟩
          · refine Or.inr ⟨by show m₃.user_id = m.user_id + 1; rw [u1, r1],
              by show m₃.last_user_join = t; exact u2, ?_, ?_⟩
            · rw [r4, r6] at u3
              exact u3
            · rw [r2, r3] at u4
              exact u4
        · intro hc
          simp [hnr] at hc
  | true =>
    rw [hnr] at h
    simp only [if_true] at h
    split at h
    · exact Option.noConfusion h
    · rename_i m₁ hr
      have hrr := hr
      unfold ManagerState.ramp_up at hrr
      obtain ⟨f1, f2, f3, f4, f5, f6, f7⟩ :=
        rampUpFrom_facts m.workload.num_users 0 t m.ramp_up_time m m₁ hrr
      split at h
      · exact Option.noConfusion h
      · rename_i m₃ hadm
        split at h
        · exact Option.noConfusion h
        · rename_i ss hsa
          obtain rfl := Option.some_inj.mp h
          obtain ⟨r1, r2, r3, r4, r5, r6⟩ := record_start_time_fields m₁ t
          obtain ⟨a1, a2, a3, a4⟩ := admit_new_user_spec (m₁.record_start_time t) m₃ t hadm
          refine ⟨?_, ?_, ?_, ?_, ?_⟩
          · show m₃.gap_between_users = m.gap_between_users
            rw [a1, r3, f6]
          · show m₃.workload = m.workload
            rw [a2, r4, f7]
          · show m₃.need_ramp_up = false
            rw [a3, r5, f1]
          · intro hc
            simp [hnr] at hc
          · intro _ hg
            have hnoadm : m₃.user_id = m₁.user_id ∧ m₃.last_user_join = m₁.last_user_join := by
              rcases a4 with ⟨u1, u2⟩ | ⟨u1, u2, u3, u4⟩
              · exact ⟨by rw [u1, r1], by rw [u2, r2]⟩
              · exfalso
                rcases Nat.eq_zero_or_pos m.workload.num_users with hn0 | hnpos
                · rw [r4, f7, r6, hn0] at u3
                  omega
                · rw [r2, r3, f4 hnpos, f6] at u4
                  have : t - t = 0 := sub_self t
                  rw [this] at u4
                  exact absurd u4 (not_lt.mpr hg.le)
            obtain ⟨hu, hl⟩ := hnoadm
            refine ⟨?_, ?_, ?_, ?_⟩
            · show m₃.user_id ≤ m.user_id + (m.workload.num_users : Int)
              rw [hu]
              exact f2
            · show m.user_id ≤ m₃.user_id
              rw [hu]
              exact f3
            · intro hnpos
              show m₃.last_user_join = t
              rw [hl]
              exact f4 hnpos
            · intro hn0
              constructor
              · show m₃.last_user_join = m.last_user_join
                rw [hl]
                exact (f5 hn0).1
              · show m₃.user_id = m.user_id
                rw [hu]
                exact (f5 hn0).2

theorem admissionInv_applyMEvent (init : Int) (n : Nat) (g wStart T : ℚ)
    (m m₂ : ManagerState) (e : MEvent) (rand : Int → String)
    (hg : 0 < g)
    (hgap : m.gap_between_users = g) (hn : m.workload.num_users = n)
    (hticks : ∀ t, e = MEvent.tick t → wStart ≤ t ∧ t ≤ wStart + T)
    (hinv : AdmissionInv init n g wStart T m)
    (h : applyMEvent rand m e = some m₂) :
    AdmissionInv init n g wStart T m₂ ∧
    m₂.gap_between_users = g ∧ m₂.workload.num_users = n := by
  cases e with
  | deliver i r =>
    simp only [applyMEvent] at h
    split at h
    · exact Option.noConfusion h
    · rename_i s hs
      obtain ⟨s₂, _, rfl⟩ := Option.map_eq_some'.mp h
      exact ⟨hinv, hgap, hn⟩
  | deliverErr =>
    simp only [applyMEvent] at h
    obtain rfl := Option.some_inj.mp h
    exact ⟨hinv, hgap, hn⟩
  | tick t =>
    simp only [applyMEvent] at h
    obtain ⟨w1, w2⟩ := hticks t rfl
    obtain ⟨s_gap, s_wl, s_need, s_adm, s_ramp⟩ := manager_step_effects m t rand m₂ h
    have hgap₂ : m₂.gap_between_users = g := by rw [s_gap, hgap]
    have hn₂ : m₂.workload.num_users = n := by rw [s_wl, hn]
    refine ⟨?_, hgap₂, hn₂⟩
    rcases hinv with ⟨hneed, huid⟩ | ⟨hneed, k, hk1, hk2⟩
    · -- pre-ramp state: this tick runs the ramp
      obtain ⟨b1, b2, b3, b4⟩ := s_ramp hneed (by rw [hgap]; exact hg)
      refine Or.inr ⟨s_need, 0, ?_, Or.inl ⟨rfl, ?_⟩⟩
      · rw [huid] at b1
        rw [hn] at b1
        simpa using b1
      · rcases Nat.eq_zero_or_pos m.workload.num_users with h0 | hpos
        · rw [hn] at h0
          exact Or.inl h0
        · refine Or.inr ?_
          rw [b3 hpos]
          exact ⟨w1, w2⟩
    · -- ramped state: at most one admission
      rcases s_adm hneed with ⟨u1, u2⟩ | ⟨u1, u2, u3, u4⟩
      · refine Or.inr ⟨s_need, k, ?_, ?_⟩
        · rw [u1]
          exact hk1
        · rw [u2]
          exact hk2
      · rcases hk2 with ⟨hk0, hcase⟩ | ⟨hk01, hw1, hw2, hkg⟩
        · rcases hcase with hn0 | ⟨hl1, hl2⟩
          · -- zero target population: admission guard is impossible
            exfalso
            rw [hn, hn0] at u3
            omega
          · refine Or.inr ⟨s_need, 1, ?_, Or.inr ⟨le_refl 1, ?_, ?_, ?_⟩⟩
            · rw [u1]
              rw [hk0] at hk1
              push_cast at hk1 ⊢
              omega
            · rw [u2]
              exact w1
            · rw [u2]
              exact w2
            · rw [u2]
              rw [hgap] at u4
              push_cast
              linarith
        · refine Or.inr ⟨s_need, k + 1, ?_, Or.inr ⟨by omega, ?_, ?_, ?_⟩⟩
          · rw [u1]
            push_cast at hk1 ⊢
            omega
          · rw [u2]
            exact w1
          · rw [u2]
            exact w2
          · rw [u2]
            rw [hgap] at u4
            push_cast
            have expand : ((k : ℚ) + 1) * g = (k : ℚ) * g + g := by ring
            rw [expand]
            linarith

theorem admissionInv_runMEvents (init : Int) (n : Nat) (g wStart T : ℚ)
    (rand : Int → String) (events : List MEvent) :
    ∀ (m m₂ : ManagerState),
      0 < g →
      m.gap_between_users = g → m.workload.num_users = n →
      (∀ e ∈ events, ∀ t, e = MEvent.tick t → wStart ≤ t ∧ t ≤ wStart + T) →
      AdmissionInv init n g wStart T m →
      runMEvents rand m events = some m₂ →
      AdmissionInv init n g wStart T m₂ := by
  induction events with
  | nil =>
    intro m m₂ _ _ _ _ hinv h
    obtain rfl := Option.some_inj.mp h
    exact hinv
  | cons e es ih =>
    intro m m₂ hg hgap hn hticks hinv h
    unfold runMEvents at h
    split at h
    · exact Option.noConfusion h
    · rename_i mid hmid
      obtain ⟨hinv₂, hgap₂, hn₂⟩ := admissionInv_applyMEvent init n g wStart T m mid e rand
        hg hgap hn (fun t ht => hticks e (by simp) t ht) hinv hmid
      exact ih mid m₂ hg hgap₂ hn₂
        (fun e₂ he₂ t ht => hticks e₂ (by simp [he₂]) t ht) hinv₂ h

theorem admissionInv_bound (init : Int) (n : Nat) (g wStart T : ℚ)
    (m : ManagerState) (hg : 0 < g) (hT : 0 ≤ T)
    (hinv : AdmissionInv init n g wStart T m) :
    m.user_id - init ≤ (n : Int) + ⌊T / g⌋ := by
  have hfl : 0 ≤ ⌊T / g⌋ := Int.floor_nonneg.mpr (div_nonneg hT hg.le)
  rcases hinv with ⟨_, huid⟩ | ⟨_, k, hk1, hk2⟩
  · rw [huid]
    have hnn : (0 : Int) ≤ (n : Int) := Int.ofNat_nonneg n
    omega
  · rcases hk2 with ⟨hk0, _⟩ | ⟨_, _, hw2, hkg⟩
    · rw [hk0] at hk1
      push_cast at hk1
      omega
    · have hkT : (k : ℚ) * g < T := by
        have : m.last_user_join - wStart ≤ T := by linarith
        linarith
      have hkdiv : (k : ℚ) ≤ T / g := le_of_lt ((lt_div_iff₀ hg).mpr hkT)
      have hkfl : (k : Int) ≤ ⌊T / g⌋ := Int.le_floor.mpr (by push_cast; exact hkdiv)
      omega

theorem demo_mk7_eval :
    ManagerState.mk' demoW7 demoRows 0 = Except.ok demoManager7 := by
  norm_num [ManagerState.mk', AppsManager.mk', load_apps, demoW7, demoRows,
    demoManager7, demoApp]

/-- C7: after ramp-up, `UserSessionManager.step` admits at most one new
session per tick, and only when the active population is below
`num_users` and the time since the last admission exceeds
`gap_between_users`; consequently, over any window of `T ≥ 0` seconds
containing all tick times, the admitted population (total sessions ever
created) never exceeds `⌊T / gap_between_users⌋` plus the initial ramp
population `num_users`. -/
theorem c7_admission_pacing :
    (∀ (m : ManagerState) (t : ℚ) (rand : Int → String) (m₂ : ManagerState),
        m.need_ramp_up = false →
        m.step t rand = some m₂ →
        (m₂.user_id = m.user_id ∨ m₂.user_id = m.user_id + 1) ∧
        (m₂.user_id = m.user_id + 1 →
          (m.workload.num_users : Int) > (m.sessions.length : Int) ∧
          t - m.last_user_join > m.gap_between_users)) ∧
    (∀ (w : WorkloadConfig) (rows : List AppRow) (init_uid : Int)
        (m₀ : ManagerState) (rand : Int → String) (events : List MEvent)
        (m₂ : ManagerState) (wStart T : ℚ),
        ManagerState.mk' w rows init_uid = Except.ok m₀ →
        0 < m₀.gap_between_users →
        0 ≤ T →
        (∀ e ∈ events, ∀ t, e = MEvent.tick t → wStart ≤ t ∧ t ≤ wStart + T) →
        runMEvents rand m₀ events = some m₂ →
        m₂.user_id - init_uid ≤
          (w.num_users : Int) + ⌊T / m₀.gap_between_users⌋) := by
  constructor
  · intro m t rand m₂ hneed h
    obtain ⟨_, _, _, s_adm, _⟩ := manager_step_effects m t rand m₂ h
    rcases s_adm hneed with ⟨u1, _⟩ | ⟨u1, _, u3, u4⟩
    · refine ⟨Or.inl u1, ?_⟩
      intro hc
      rw [u1] at hc
      omega
    · exact ⟨Or.inr u1, fun _ => ⟨u3, u4⟩⟩
  · intro w rows init_uid m₀ rand events m₂ wStart T hmk hg hT hticks hrun
    have hm₀ : m₀.need_ramp_up = true ∧ m₀.user_id = init_uid ∧
        m₀.workload = w := by
      unfold ManagerState.mk' at hmk
      split at hmk
      · exact Except.noConfusion hmk
      · have := Except.ok.inj hmk
        subst this
        exact ⟨rfl, rfl, rfl⟩
    obtain ⟨hnr₀, huid₀, hwl₀⟩ := hm₀
    have hinv₀ : AdmissionInv init_uid w.num_users m₀.gap_between_users wStart T m₀ :=
      Or.inl ⟨hnr₀, huid₀⟩
    have hinv₂ := admissionInv_runMEvents init_uid w.num_users m₀.gap_between_users
      wStart T rand events m₀ m₂ hg rfl (by rw [hwl₀]) hticks hinv₀ hrun
    exact admissionInv_bound init_uid w.num_users m₀.gap_between_users wStart T m₂
      hg hT hinv₂

/-- Witness for C7: a tick of a ramped zero-target manager admits nobody,
and an empty trace from the demo manager satisfies the bound. -/
theorem c7_witness :
    ((({ demoManager0 with start_time := some 7 } : ManagerState).user_id =
        demoManager0.user_id ∨
      ({ demoManager0 with start_time := some 7 } : ManagerState).user_id =
        demoManager0.user_id + 1)) ∧
    demoManager7.user_id - 0 ≤
      (demoW7.num_users : Int) + ⌊(0 : ℚ) / demoManager7.gap_between_users⌋ :=
  ⟨(c7_admission_pacing.1 demoManager0 7 (fun _ => "")
      { demoManager0 with start_time := some 7 } rfl rfl).1,
   c7_admission_pacing.2 demoW7 demoRows 0 demoManager7 (fun _ => "") []
     demoManager7 0 0 demo_mk7_eval (by decide) (by decide) (by simp) rfl⟩

end MRQA
